import Mathlib

/-!
Verification of scripts/merge-coverage.py: an LCOV coverage merger that
parses LCOV text files, merges per-source-file coverage records by taking
the maximum execution count per key, and re-serializes the merged data.

Python dicts are modelled as insertion-ordered association lists: `alGet`
returns the value stored for a key, `alSet` updates an existing key in
place or appends a new one, exactly as a Python dict preserves insertion
order. Exceptions (`int` conversion failures, `KeyError`) are modelled by
`Option`: `none` is a raised exception that the per-file `try` block
catches. File contents are lists of lines; a missing input file is `none`.
-/

/-- Lookup in an association list: the value stored for `k`, as
`coverage_data.get(k)` / `k in coverage_data` in Python. -/
def alGet {α β : Type} [DecidableEq α] : List (α × β) → α → Option β
  | [], _ => none
  | (k1, v) :: rest, k => if k = k1 then some v else alGet rest k

/-- Update in an association list: `d[k] = v` in Python. An existing key is
overwritten in place (insertion order kept); a new key is appended. -/
def alSet {α β : Type} [DecidableEq α] : List (α × β) → α → β → List (α × β)
  | [], k, v => [(k, v)]
  | (k1, v1) :: rest, k, v =>
      if k = k1 then (k, v) :: rest else (k1, v1) :: alSet rest k v

/-- Python `d.get(k, 0)` over an integer-counter dict. -/
def getCount {α : Type} [DecidableEq α] (d : List (α × Int)) (k : α) : Int :=
  (alGet d k).getD 0

/-- The recurring update `d[k] = max(d.get(k, 0), c)` of merge-coverage.py. -/
def setMax {α : Type} [DecidableEq α] (d : List (α × Int)) (k : α) (c : Int) :
    List (α × Int) :=
  alSet d k (max (getCount d k) c)

/-- The counter-merge loop: `for k, c in incoming.items(): agg[k] =
max(agg.get(k, 0), c)`, used identically for functions, lines and branches. -/
def mergeCounts {α : Type} [DecidableEq α] (agg incoming : List (α × Int)) :
    List (α × Int) :=
  incoming.foldl (fun a kv => setMax a kv.1 kv.2) agg

theorem alGet_alSet_self {α β : Type} [DecidableEq α]
    (d : List (α × β)) (k : α) (v : β) : alGet (alSet d k v) k = some v := by
  induction d with
  | nil => simp [alSet, alGet]
  | cons e rest ih =>
      obtain ⟨k1, v1⟩ := e
      by_cases h : k = k1
      · simp [alSet, alGet, h]
      · simp [alSet, alGet, h, ih]

theorem alGet_alSet_ne {α β : Type} [DecidableEq α]
    (d : List (α × β)) (k k2 : α) (v : β) (h : k2 ≠ k) :
    alGet (alSet d k v) k2 = alGet d k2 := by
  induction d with
  | nil => simp [alSet, alGet, h]
  | cons e rest ih =>
      obtain ⟨k1, v1⟩ := e
      by_cases hk : k = k1
      · subst hk
        simp [alSet, alGet, h]
      · by_cases hk2 : k2 = k1
        · simp [alSet, alGet, hk, hk2]
        · simp [alSet, alGet, hk, hk2, ih]

theorem alSet_alSet_self {α β : Type} [DecidableEq α]
    (d : List (α × β)) (k : α) (v w : β) :
    alSet (alSet d k v) k w = alSet d k w := by
  induction d with
  | nil => simp [alSet]
  | cons e rest ih =>
      obtain ⟨k1, v1⟩ := e
      by_cases h : k = k1
      · simp [alSet, h]
      · simp [alSet, h, ih]

theorem alGet_mem {α β : Type} [DecidableEq α]
    {d : List (α × β)} {k : α} {v : β} (h : alGet d k = some v) : (k, v) ∈ d := by
  induction d with
  | nil => simp [alGet] at h
  | cons e rest ih =>
      obtain ⟨k1, v1⟩ := e
      by_cases hk : k = k1
      · subst hk
        simp [alGet] at h
        simp [h]
      · simp [alGet, hk] at h
        exact List.mem_cons_of_mem _ (ih h)

theorem alGet_eq_none_iff {α β : Type} [DecidableEq α]
    (d : List (α × β)) (k : α) : alGet d k = none ↔ k ∉ d.map Prod.fst := by
  induction d with
  | nil => simp [alGet]
  | cons e rest ih =>
      obtain ⟨k1, v1⟩ := e
      by_cases hk : k = k1
      · subst hk
        simp [alGet]
      · simp [alGet, hk, ih]

theorem mem_alSet {α β : Type} [DecidableEq α]
    {d : List (α × β)} {k : α} {v : β} {e : α × β} (h : e ∈ alSet d k v) :
    e ∈ d ∨ e = (k, v) := by
  induction d with
  | nil =>
      simp [alSet] at h
      simp [h]
  | cons e1 rest ih =>
      obtain ⟨k1, v1⟩ := e1
      by_cases hk : k = k1
      · simp [alSet, hk] at h
        rcases h with h | h
        · subst hk
          exact Or.inr (by simp [h])
        · exact Or.inl (List.mem_cons_of_mem _ h)
      · simp [alSet, hk] at h
        rcases h with h | h
        · exact Or.inl (by simp [h])
        · rcases ih h with h2 | h2
          · exact Or.inl (List.mem_cons_of_mem _ h2)
          · exact Or.inr h2

theorem mem_keys_alSet {α β : Type} [DecidableEq α]
    {d : List (α × β)} {k k2 : α} {v : β}
    (h : k2 ∈ (alSet d k v).map Prod.fst) : k2 ∈ d.map Prod.fst ∨ k2 = k := by
  simp only [List.mem_map] at h
  obtain ⟨e, he, hfst⟩ := h
  rcases mem_alSet he with h2 | h2
  · exact Or.inl (by exact List.mem_map.mpr ⟨e, h2, hfst⟩)
  · subst h2
    exact Or.inr hfst.symm

theorem nodupKeys_alSet {α β : Type} [DecidableEq α]
    {d : List (α × β)} (k : α) (v : β) (h : (d.map Prod.fst).Nodup) :
    ((alSet d k v).map Prod.fst).Nodup := by
  induction d with
  | nil => simp [alSet]
  | cons e rest ih =>
      obtain ⟨k1, v1⟩ := e
      simp only [List.map_cons, List.nodup_cons] at h
      by_cases hk : k = k1
      · subst hk
        simpa [alSet] using h
      · have ih2 := ih h.2
        rw [alSet, if_neg hk]
        simp only [List.map_cons, List.nodup_cons]
        refine ⟨fun hmem => ?_, ih2⟩
        rcases mem_keys_alSet hmem with h2 | h2
        · exact h.1 h2
        · exact hk (h2.symm)

theorem alGet_isSome_alSet {α β : Type} [DecidableEq α]
    (d : List (α × β)) (k k2 : α) (v : β) :
    (alGet (alSet d k v) k2).isSome = ((alGet d k2).isSome || decide (k2 = k)) := by
  by_cases h : k2 = k
  · subst h
    simp [alGet_alSet_self]
  · simp [alGet_alSet_ne d k k2 v h, h]

theorem getCount_cons {α : Type} [DecidableEq α]
    (k1 : α) (c1 : Int) (rest : List (α × Int)) (k : α) :
    getCount ((k1, c1) :: rest) k = if k = k1 then c1 else getCount rest k := by
  by_cases h : k = k1 <;> simp [getCount, alGet, h]

theorem getCount_of_not_mem {α : Type} [DecidableEq α]
    {d : List (α × Int)} {k : α} (h : k ∉ d.map Prod.fst) : getCount d k = 0 := by
  simp [getCount, (alGet_eq_none_iff d k).mpr h]

theorem getCount_nonneg {α : Type} [DecidableEq α]
    {d : List (α × Int)} (h : ∀ e ∈ d, 0 ≤ e.2) (k : α) : 0 ≤ getCount d k := by
  unfold getCount
  cases hg : alGet d k with
  | none => simp
  | some v =>
      simpa using h _ (alGet_mem hg)

theorem getCount_setMax_self {α : Type} [DecidableEq α]
    (d : List (α × Int)) (k : α) (c : Int) :
    getCount (setMax d k c) k = max (getCount d k) c := by
  simp [setMax, getCount, alGet_alSet_self]

theorem getCount_setMax_ne {α : Type} [DecidableEq α]
    (d : List (α × Int)) (k k2 : α) (c : Int) (h : k2 ≠ k) :
    getCount (setMax d k c) k2 = getCount d k2 := by
  simp [setMax, getCount, alGet_alSet_ne d k k2 _ h]

theorem setMax_nonneg {α : Type} [DecidableEq α]
    {d : List (α × Int)} (h : ∀ e ∈ d, 0 ≤ e.2) (k : α) (c : Int) :
    ∀ e ∈ setMax d k c, 0 ≤ e.2 := by
  intro e he
  rcases mem_alSet he with h2 | h2
  · exact h _ h2
  · subst h2
    exact le_trans (getCount_nonneg h k) (le_max_left _ _)

theorem setMax_nodupKeys {α : Type} [DecidableEq α]
    {d : List (α × Int)} (h : (d.map Prod.fst).Nodup) (k : α) (c : Int) :
    ((setMax d k c).map Prod.fst).Nodup :=
  nodupKeys_alSet _ _ h

theorem getCount_mergeCounts {α : Type} [DecidableEq α]
    (b a : List (α × Int)) (ha : ∀ e ∈ a, 0 ≤ e.2) (hb : (b.map Prod.fst).Nodup)
    (k : α) :
    getCount (mergeCounts a b) k = max (getCount a k) (getCount b k) := by
  induction b generalizing a with
  | nil =>
      have h1 : mergeCounts a [] = a := rfl
      have h2 : getCount ([] : List (α × Int)) k = 0 := rfl
      rw [h1, h2]
      exact (max_eq_left (getCount_nonneg ha k)).symm
  | cons e rest ih =>
      obtain ⟨k1, c1⟩ := e
      simp only [List.map_cons, List.nodup_cons] at hb
      have step : mergeCounts a ((k1, c1) :: rest) = mergeCounts (setMax a k1 c1) rest := rfl
      rw [step, ih (setMax a k1 c1) (setMax_nonneg ha k1 c1) hb.2, getCount_cons]
      by_cases h : k = k1
      · subst h
        rw [getCount_setMax_self, if_pos rfl,
          getCount_of_not_mem hb.1, max_comm (getCount a k) c1, max_assoc]
        have h0 : max (getCount a k) 0 = getCount a k := max_eq_left (getCount_nonneg ha k)
        rw [h0, max_comm c1 (getCount a k)]
      · rw [getCount_setMax_ne a k1 k c1 h, if_neg h]

theorem mergeCounts_nonneg {α : Type} [DecidableEq α]
    (b a : List (α × Int)) (ha : ∀ e ∈ a, 0 ≤ e.2) :
    ∀ e ∈ mergeCounts a b, 0 ≤ e.2 := by
  induction b generalizing a with
  | nil => exact ha
  | cons e rest ih => exact ih _ (setMax_nonneg ha e.1 e.2)

theorem mergeCounts_nodupKeys {α : Type} [DecidableEq α]
    (b a : List (α × Int)) (ha : (a.map Prod.fst).Nodup) :
    ((mergeCounts a b).map Prod.fst).Nodup := by
  induction b generalizing a with
  | nil => exact ha
  | cons e rest ih => exact ih _ (setMax_nodupKeys ha e.1 e.2)

theorem isSome_mergeCounts {α : Type} [DecidableEq α]
    (b a : List (α × Int)) (k : α) :
    (alGet (mergeCounts a b) k).isSome = ((alGet a k).isSome || (alGet b k).isSome) := by
  induction b generalizing a with
  | nil => simp [mergeCounts, alGet]
  | cons e rest ih =>
      obtain ⟨k1, c1⟩ := e
      have step : mergeCounts a ((k1, c1) :: rest) = mergeCounts (setMax a k1 c1) rest := rfl
      rw [step, ih (setMax a k1 c1)]
      unfold setMax
      rw [alGet_isSome_alSet]
      by_cases h : k = k1 <;> simp [alGet, h, Bool.or_assoc, Bool.or_comm]

/-- Character-list prefix test: `listLeads pat l` is true when `l` starts
with `pat`. Backs `strStartsWith`, the model of Python `str.startswith`. -/
def listLeads : List Char → List Char → Bool
  | [], _ => true
  | _ :: _, [] => false
  | p :: ps, c :: cs => p == c && listLeads ps cs

/-- Python `s.startswith(pre)`. -/
def strStartsWith (s pre : String) : Bool :=
  listLeads pre.data s.data

/-- Python `s[n:]`, as used for `line[3:]` and `parts[0][5:]`. -/
def strDrop (s : String) (n : Nat) : String :=
  ⟨s.data.drop n⟩

/-- Python `s.strip()`: whitespace removed from both ends. -/
def pyStrip (s : String) : String :=
  ⟨((s.data.dropWhile Char.isWhitespace).reverse.dropWhile Char.isWhitespace).reverse⟩

/-- Worker for `splitComma`: accumulates the current field in reverse. -/
def splitCommaAux : List Char → List Char → List String
  | [], acc => [⟨acc.reverse⟩]
  | c :: cs, acc =>
      if c == ',' then ⟨acc.reverse⟩ :: splitCommaAux cs [] else splitCommaAux cs (c :: acc)

/-- Python `s.split(',')`. -/
def splitComma (s : String) : List String :=
  splitCommaAux s.data []

/-- Worker for `splitCommaOnce`. -/
def splitCommaOnceAux : List Char → List Char → List String
  | [], acc => [⟨acc.reverse⟩]
  | c :: cs, acc =>
      if c == ',' then [⟨acc.reverse⟩, ⟨cs⟩] else splitCommaOnceAux cs (c :: acc)

/-- Python `s.split(',', 1)`: at most one split, at the first comma. -/
def splitCommaOnce (s : String) : List String :=
  splitCommaOnceAux s.data []

/-- Numeric value of a digit string (most significant first). -/
def digitsVal (ds : List Char) : Nat :=
  ds.foldl (fun n c => 10 * n + (c.toNat - 48)) 0

/-- Python `int(s)` on decimal text: surrounding whitespace allowed, one
optional sign, then digits; anything else raises (`none`). -/
def pyInt (s : String) : Option Int :=
  match (pyStrip s).data with
  | [] => none
  | '-' :: ds =>
      if ds ≠ [] ∧ ds.all Char.isDigit then some (-(digitsVal ds : Int)) else none
  | '+' :: ds =>
      if ds ≠ [] ∧ ds.all Char.isDigit then some ((digitsVal ds : Int)) else none
  | ds =>
      if ds.all Char.isDigit then some ((digitsVal ds : Int)) else none

/-- The per-source-file record built by `parse_lcov_file`: the Python dict
`{'functions': {}, 'lines': {}, 'branches': {}, 'function_data': [],
'branch_data': []}`. -/
structure CoverageRecord where
  functions : List (String × Int)
  lines : List (Int × Int)
  branches : List (String × Int)
  function_data : List String
  branch_data : List String
deriving Repr, DecidableEq

/-- The fresh record created when a new `SF:` path is seen. -/
def emptyRecord : CoverageRecord :=
  { functions := [], lines := [], branches := [], function_data := [], branch_data := [] }

/-- `coverage_data`: source-file path to its record, in insertion order. -/
abbrev CoverageData := List (String × CoverageRecord)

/-- The parsing loop's state: `coverage_data` and `current_file`. -/
structure ParseState where
  coverage_data : CoverageData
  current_file : Option String
deriving Repr, DecidableEq

/-- Python truthiness of `current_file`: `None` and the empty string are
falsy; a nonempty path is returned for use as the dict key. -/
def pyTruthy (o : Option String) : Option String :=
  match o with
  | none => none
  | some s => if s.data = [] then none else some s

/-- Update `coverage_data[cf]` via `f`; `none` models the `KeyError` raised
when `cf` is not a key (caught by the file-level `try`). -/
def modifyRec (d : CoverageData) (cf : String) (f : CoverageRecord → CoverageRecord) :
    Option CoverageData :=
  match alGet d cf with
  | none => none
  | some r => some (alSet d cf (f r))

/-- One iteration of the `for line in f` loop of `parse_lcov_file`
(merge-coverage.py lines 19-62). `none` models an exception escaping the
iteration (a failed `int` conversion). The five
tag tests are mutually exclusive, so a tag whose `current_file` guard is
falsy falls through every later `elif` and leaves the state unchanged. -/
def parseLine (st : ParseState) (rawLine : String) : Option ParseState :=
  let line := pyStrip rawLine
  if strStartsWith line "SF:" then
    let cf := strDrop line 3
    if (alGet st.coverage_data cf).isSome then
      some { st with current_file := some cf }
    else
      some { coverage_data := st.coverage_data ++ [(cf, emptyRecord)],
             current_file := some cf }
  else if strStartsWith line "FN:" then
    match pyTruthy st.current_file with
    | none => some st
    | some cf =>
        (modifyRec st.coverage_data cf (fun r =>
          { r with function_data := r.function_data ++ [line] })).map
          (fun d => { st with coverage_data := d })
  else if strStartsWith line "FNDA:" then
    match pyTruthy st.current_file with
    | none => some st
    | some cf =>
        match splitCommaOnce line with
        | [p0, p1] =>
            match pyInt (strDrop p0 5) with
            | none => none
            | some count =>
                (modifyRec st.coverage_data cf (fun r =>
                  { r with functions := setMax r.functions p1 count })).map
                  (fun d => { st with coverage_data := d })
        | _ => some st
  else if strStartsWith line "DA:" then
    match pyTruthy st.current_file with
    | none => some st
    | some cf =>
        match splitComma line with
        | [p0, p1] =>
            match pyInt (strDrop p0 3) with
            | none => none
            | some line_num =>
                match pyInt p1 with
                | none => none
                | some count =>
                    (modifyRec st.coverage_data cf (fun r =>
                      { r with lines := setMax r.lines line_num count })).map
                      (fun d => { st with coverage_data := d })
        | _ => some st
  else if strStartsWith line "BRDA:" then
    match pyTruthy st.current_file with
    | none => some st
    | some cf =>
        match modifyRec st.coverage_data cf (fun r =>
          { r with branch_data := r.branch_data ++ [line] }) with
        | none => none
        | some d1 =>
            match splitComma line with
            | [p0, p1, p2, p3] =>
                match (if p3 = "-" then some (0 : Int) else pyInt p3) with
                | none => none
                | some count =>
                    (modifyRec d1 cf (fun r =>
                      { r with branches :=
                          setMax r.branches (strDrop p0 5 ++ ":" ++ p1 ++ ":" ++ p2) count })).map
                      (fun d => { st with coverage_data := d })
            | _ => some { st with coverage_data := d1 }
  else
    some st

/-- The whole `for line in f` loop: `none` is an exception reaching the
`except` clause. -/
def runLines : ParseState → List String → Option ParseState
  | st, [] => some st
  | st, l :: ls =>
      match parseLine st l with
      | none => none
      | some st2 => runLines st2 ls

/-- The loop's initial state: `coverage_data = {}`, `current_file = None`. -/
def initState : ParseState :=
  { coverage_data := [], current_file := none }

/-- `parse_lcov_file` on a file's lines: on any exception the error is
reported and `{}` returned, discarding everything parsed so far. -/
def parse_lcov_file (content : List String) : CoverageData :=
  match runLines initState content with
  | none => []
  | some st => st.coverage_data

/-- The record seeded when a source file is first seen by the merger:
empty counters plus copies of this input's definition lists
(merge-coverage.py lines 82-89). -/
def seedRecord (data : CoverageRecord) : CoverageRecord :=
  { functions := [], lines := [], branches := [],
    function_data := data.function_data, branch_data := data.branch_data }

/-- The three max-merge loops of merge_coverage_files (lines 91-107). -/
def mergeRecords (base incoming : CoverageRecord) : CoverageRecord :=
  { base with
    functions := mergeCounts base.functions incoming.functions,
    lines := mergeCounts base.lines incoming.lines,
    branches := mergeCounts base.branches incoming.branches }

/-- One iteration of `for source_file, data in file_data.items()`:
seed if absent, then max-merge the three counter dicts. -/
def mergeEntry (agg : CoverageData) (e : String × CoverageRecord) : CoverageData :=
  let base := (alGet agg e.1).getD (seedRecord e.2)
  alSet agg e.1 (mergeRecords base e.2)

/-- Folding one parsed input file into the aggregate. -/
def mergeOneFile (agg : CoverageData) (incoming : CoverageData) : CoverageData :=
  incoming.foldl mergeEntry agg

/-- One iteration of `for file_path in file_paths`: a missing file
(`none`) is warned about and skipped; an existing one is parsed and its
records folded in. -/
def mergeStep (agg : CoverageData) (inp : Option (List String)) : CoverageData :=
  match inp with
  | none => agg
  | some content => mergeOneFile agg (parse_lcov_file content)

/-- `merge_coverage_files(file_paths)` (lines 69-109). -/
def merge_coverage_files (inputs : List (Option (List String))) : CoverageData :=
  inputs.foldl mergeStep []

/-- Worker for `dedupFirst`: the `seen` set of already-written lines. -/
def dedupSeen : List String → List String → List String
  | [], _ => []
  | x :: rest, seen =>
      if x ∈ seen then dedupSeen rest seen else x :: dedupSeen rest (x :: seen)

/-- The write-once-per-verbatim-line loops of write_merged_lcov
(lines 120-125 and 137-142): each distinct line at its first occurrence. -/
def dedupFirst (l : List String) : List String :=
  dedupSeen l []

/-- Python tuple comparison on `(line, count)` pairs, as used by
`sorted(data['lines'].items())`. -/
def pairLe (a b : Int × Int) : Bool :=
  decide (a.1 < b.1) || (decide (a.1 = b.1) && decide (a.2 ≤ b.2))

/-- Ordered insertion for `sortPairs`. -/
def insertPair (kv : Int × Int) : List (Int × Int) → List (Int × Int)
  | [] => [kv]
  | x :: rest => if pairLe kv x then kv :: x :: rest else x :: insertPair kv rest

/-- `sorted(data['lines'].items())`. -/
def sortPairs (l : List (Int × Int)) : List (Int × Int) :=
  l.foldr insertPair []

/-- `sum(1 for count in d.values() if count > 0)`: the covered-key count. -/
def coveredCount {α : Type} (d : List (α × Int)) : Nat :=
  ((d.map Prod.snd).filter (fun c => decide (0 < c))).length

/-- The lines one iteration of the `for source_file, data in
merged_data.items()` loop of write_merged_lcov (lines 116-160) writes, in
the exact order of its `f.write` calls: TN:, SF:, deduplicated FN: lines,
FNDA: lines, FNF/FNH, deduplicated BRDA: lines, BRF/BRH, sorted DA:
lines, LF/LH, end_of_record, with every summary recomputed from the
merged counters. -/
def recordBlock (e : String × CoverageRecord) : List String :=
  ["TN:", "SF:" ++ e.1]
  ++ dedupFirst e.2.function_data
  ++ e.2.functions.map (fun kv => "FNDA:" ++ toString kv.2 ++ "," ++ kv.1)
  ++ ["FNF:" ++ toString e.2.functions.length,
      "FNH:" ++ toString (coveredCount e.2.functions)]
  ++ dedupFirst e.2.branch_data
  ++ ["BRF:" ++ toString e.2.branches.length,
      "BRH:" ++ toString (coveredCount e.2.branches)]
  ++ (sortPairs e.2.lines).map
      (fun kv => "DA:" ++ toString kv.1 ++ "," ++ toString kv.2)
  ++ ["LF:" ++ toString e.2.lines.length,
      "LH:" ++ toString (coveredCount e.2.lines)]
  ++ ["end_of_record"]

def write_merged_lcov (merged : CoverageData) : List String :=
  merged.foldl (fun out e => out ++ recordBlock e) []

/-- `total_lines` of main's summary (line 180). -/
def totalLines (merged : CoverageData) : Nat :=
  (merged.map (fun e => e.2.lines.length)).sum

/-- `covered_lines` of main's summary (line 181). -/
def coveredLines (merged : CoverageData) : Nat :=
  (merged.map (fun e => coveredCount e.2.lines)).sum

/-- `total_functions` of main's summary (line 182). -/
def totalFunctions (merged : CoverageData) : Nat :=
  (merged.map (fun e => e.2.functions.length)).sum

/-- `covered_functions` of main's summary (line 183). -/
def coveredFunctions (merged : CoverageData) : Nat :=
  (merged.map (fun e => coveredCount e.2.functions)).sum

/-- `total_branches` of main's summary (line 184). -/
def totalBranches (merged : CoverageData) : Nat :=
  (merged.map (fun e => e.2.branches.length)).sum

/-- `covered_branches` of main's summary (line 185). -/
def coveredBranches (merged : CoverageData) : Nat :=
  (merged.map (fun e => coveredCount e.2.branches)).sum

/-- The guarded ratio `(covered / total * 100) if total > 0 else 0` of
main (lines 187-189): the division happens only when the denominator is
positive, and a zero denominator yields 0. -/
def pctOf (covered total : Nat) : ℚ :=
  if 0 < total then (covered : ℚ) / (total : ℚ) * 100 else 0

/-- CPython fixed-point formatting `f"{q:.2f}"` for the nonnegative ratios
produced here (round-half-up; the rounding mode is irrelevant at the
values proved about). -/
def format2 (q : ℚ) : String :=
  toString (Rat.floor (q * 100 + 1 / 2) / 100) ++ "." ++
    (if Rat.floor (q * 100 + 1 / 2) % 100 < 10
     then "0" ++ toString (Rat.floor (q * 100 + 1 / 2) % 100)
     else toString (Rat.floor (q * 100 + 1 / 2) % 100))

/-- `main` after argument parsing (lines 169-196): merge; if the merged
aggregate is empty report and exit 1 writing nothing, else write the
output file and fall off the end (exit 0). The first component is the
output file's content (`none` = never written). -/
def runMain (inputs : List (Option (List String))) : Option (List String) × Nat :=
  let merged := merge_coverage_files inputs
  if merged = [] then (none, 1)
  else (some (write_merged_lcov merged), 0)

theorem listLeads_eq_true : ∀ (ps l : List Char), listLeads ps l = true ↔ ∃ t, l = ps ++ t := by
  intro ps
  induction ps with
  | nil =>
      intro l
      simp [listLeads]
  | cons p ps ih =>
      intro l
      cases l with
      | nil =>
          simp [listLeads]
      | cons c cs =>
          rw [listLeads]
          constructor
          · intro h
            rw [Bool.and_eq_true, beq_iff_eq] at h
            obtain ⟨t, ht⟩ := (ih cs).mp h.2
            exact ⟨t, by rw [List.cons_append, ht, h.1]⟩
          · rintro ⟨t, ht⟩
            rw [List.cons_append] at ht
            injection ht with hc hcs
            rw [Bool.and_eq_true, beq_iff_eq]
            exact ⟨hc.symm, (ih cs).mpr ⟨t, hcs⟩⟩

theorem strStartsWith_shape {s pre : String} (h : strStartsWith s pre = true) :
    ∃ t, s.data = pre.data ++ t :=
  (listLeads_eq_true pre.data s.data).mp h

theorem runLines_append (l1 l2 : List String) : ∀ st : ParseState,
    runLines st (l1 ++ l2) =
      match runLines st l1 with
      | none => none
      | some st2 => runLines st2 l2 := by
  induction l1 with
  | nil => intro st; simp [runLines]
  | cons l ls ih =>
      intro st
      rw [List.cons_append, runLines, runLines]
      cases parseLine st l with
      | none => rfl
      | some st2 => exact ih st2

theorem parseLine_ignored (st : ParseState) (raw : String)
    (h1 : strStartsWith (pyStrip raw) "SF:" = false)
    (h2 : strStartsWith (pyStrip raw) "FN:" = false)
    (h3 : strStartsWith (pyStrip raw) "FNDA:" = false)
    (h4 : strStartsWith (pyStrip raw) "DA:" = false)
    (h5 : strStartsWith (pyStrip raw) "BRDA:" = false) :
    parseLine st raw = some st := by
  unfold parseLine
  simp only [h1, h2, h3, h4, h5, Bool.false_eq_true, if_false]

theorem parseLine_sf_existing (st : ParseState) (raw : String) (r : CoverageRecord)
    (h : strStartsWith (pyStrip raw) "SF:" = true)
    (hr : alGet st.coverage_data (strDrop (pyStrip raw) 3) = some r) :
    parseLine st raw = some { st with current_file := some (strDrop (pyStrip raw) 3) } := by
  unfold parseLine
  simp only [h, if_true, hr, Option.isSome_some, if_pos]

theorem parseLine_fnda (st : ParseState) (raw cf p0 p1 : String) (r : CoverageRecord)
    (c : Int)
    (h3 : strStartsWith (pyStrip raw) "FNDA:" = true)
    (hcf : pyTruthy st.current_file = some cf)
    (hsp : splitCommaOnce (pyStrip raw) = [p0, p1])
    (hc : pyInt (strDrop p0 5) = some c)
    (hr : alGet st.coverage_data cf = some r) :
    parseLine st raw =
      some { st with coverage_data := (alSet st.coverage_data cf
        { r with functions := setMax r.functions p1 c }) } := by
  obtain ⟨t, ht⟩ := strStartsWith_shape h3
  have h1 : strStartsWith (pyStrip raw) "SF:" = false := by
    show listLeads ("SF:").data (pyStrip raw).data = false
    rw [ht]
    rfl
  have h2 : strStartsWith (pyStrip raw) "FN:" = false := by
    show listLeads ("FN:").data (pyStrip raw).data = false
    rw [ht]
    rfl
  unfold parseLine
  simp only [h1, h2, h3, Bool.false_eq_true, if_false, if_true, hcf, hsp, hc,
    modifyRec, hr, Option.map_some']

theorem parseLine_da (st : ParseState) (raw cf p0 p1 : String) (r : CoverageRecord)
    (k c : Int)
    (h4 : strStartsWith (pyStrip raw) "DA:" = true)
    (hcf : pyTruthy st.current_file = some cf)
    (hsp : splitComma (pyStrip raw) = [p0, p1])
    (hk : pyInt (strDrop p0 3) = some k)
    (hc : pyInt p1 = some c)
    (hr : alGet st.coverage_data cf = some r) :
    parseLine st raw =
      some { st with coverage_data := (alSet st.coverage_data cf
        { r with lines := setMax r.lines k c }) } := by
  obtain ⟨t, ht⟩ := strStartsWith_shape h4
  have h1 : strStartsWith (pyStrip raw) "SF:" = false := by
    show listLeads ("SF:").data (pyStrip raw).data = false
    rw [ht]
    rfl
  have h2 : strStartsWith (pyStrip raw) "FN:" = false := by
    show listLeads ("FN:").data (pyStrip raw).data = false
    rw [ht]
    rfl
  have h3 : strStartsWith (pyStrip raw) "FNDA:" = false := by
    show listLeads ("FNDA:").data (pyStrip raw).data = false
    rw [ht]
    rfl
  unfold parseLine
  simp only [h1, h2, h3, h4, Bool.false_eq_true, if_false, if_true, hcf, hsp, hk, hc,
    modifyRec, hr, Option.map_some']

theorem parseLine_brda (st : ParseState) (raw cf p0 p1 p2 p3 : String)
    (r : CoverageRecord) (c : Int)
    (h5 : strStartsWith (pyStrip raw) "BRDA:" = true)
    (hcf : pyTruthy st.current_file = some cf)
    (hsp : splitComma (pyStrip raw) = [p0, p1, p2, p3])
    (hc : (if p3 = "-" then some (0 : Int) else pyInt p3) = some c)
    (hr : alGet st.coverage_data cf = some r) :
    parseLine st raw =
      some { st with coverage_data := (alSet st.coverage_data cf
        { r with branch_data := r.branch_data ++ [pyStrip raw],
                 branches := (setMax r.branches
                   (strDrop p0 5 ++ ":" ++ p1 ++ ":" ++ p2) c) }) } := by
  obtain ⟨t, ht⟩ := strStartsWith_shape h5
  have h1 : strStartsWith (pyStrip raw) "SF:" = false := by
    show listLeads ("SF:").data (pyStrip raw).data = false
    rw [ht]
    rfl
  have h2 : strStartsWith (pyStrip raw) "FN:" = false := by
    show listLeads ("FN:").data (pyStrip raw).data = false
    rw [ht]
    rfl
  have h3 : strStartsWith (pyStrip raw) "FNDA:" = false := by
    show listLeads ("FNDA:").data (pyStrip raw).data = false
    rw [ht]
    rfl
  have h4 : strStartsWith (pyStrip raw) "DA:" = false := by
    show listLeads ("DA:").data (pyStrip raw).data = false
    rw [ht]
    rfl
  have hr1 : alGet (alSet st.coverage_data cf
      { r with branch_data := r.branch_data ++ [pyStrip raw] }) cf =
      some { r with branch_data := r.branch_data ++ [pyStrip raw] } :=
    alGet_alSet_self _ _ _
  unfold parseLine
  simp only [h1, h2, h3, h4, h5, Bool.false_eq_true, if_false, if_true, hcf,
    modifyRec, hr, hsp, hc, hr1, Option.map_some', alSet_alSet_self]

theorem parseLine_da_badfields (st : ParseState) (raw : String)
    (h4 : strStartsWith (pyStrip raw) "DA:" = true)
    (hlen : (splitComma (pyStrip raw)).length ≠ 2) :
    parseLine st raw = some st := by
  obtain ⟨t, ht⟩ := strStartsWith_shape h4
  have h1 : strStartsWith (pyStrip raw) "SF:" = false := by
    show listLeads ("SF:").data (pyStrip raw).data = false
    rw [ht]
    rfl
  have h2 : strStartsWith (pyStrip raw) "FN:" = false := by
    show listLeads ("FN:").data (pyStrip raw).data = false
    rw [ht]
    rfl
  have h3 : strStartsWith (pyStrip raw) "FNDA:" = false := by
    show listLeads ("FNDA:").data (pyStrip raw).data = false
    rw [ht]
    rfl
  unfold parseLine
  simp only [h1, h2, h3, h4, Bool.false_eq_true, if_false, if_true]
  cases hcf : pyTruthy st.current_file with
  | none => rfl
  | some cf =>
      rcases hsp : splitComma (pyStrip raw) with _ | ⟨a, _ | ⟨b, _ | ⟨c2, rest3⟩⟩⟩
      · rfl
      · rfl
      · simp [hsp] at hlen
      · rfl

theorem parseLine_fnda_badfields (st : ParseState) (raw : String)
    (h3 : strStartsWith (pyStrip raw) "FNDA:" = true)
    (hlen : (splitCommaOnce (pyStrip raw)).length ≠ 2) :
    parseLine st raw = some st := by
  obtain ⟨t, ht⟩ := strStartsWith_shape h3
  have h1 : strStartsWith (pyStrip raw) "SF:" = false := by
    show listLeads ("SF:").data (pyStrip raw).data = false
    rw [ht]
    rfl
  have h2 : strStartsWith (pyStrip raw) "FN:" = false := by
    show listLeads ("FN:").data (pyStrip raw).data = false
    rw [ht]
    rfl
  unfold parseLine
  simp only [h1, h2, h3, Bool.false_eq_true, if_false, if_true]
  cases hcf : pyTruthy st.current_file with
  | none => rfl
  | some cf =>
      rcases hsp : splitCommaOnce (pyStrip raw) with _ | ⟨a, _ | ⟨b, _ | ⟨c2, rest3⟩⟩⟩
      · rfl
      · rfl
      · simp [hsp] at hlen
      · rfl

theorem parseLine_brda_badfields (st : ParseState) (raw cf : String) (r : CoverageRecord)
    (h5 : strStartsWith (pyStrip raw) "BRDA:" = true)
    (hcf : pyTruthy st.current_file = some cf)
    (hr : alGet st.coverage_data cf = some r)
    (hlen : (splitComma (pyStrip raw)).length ≠ 4) :
    parseLine st raw = some { st with coverage_data := (alSet st.coverage_data cf
      { r with branch_data := r.branch_data ++ [pyStrip raw] }) } := by
  obtain ⟨t, ht⟩ := strStartsWith_shape h5
  have h1 : strStartsWith (pyStrip raw) "SF:" = false := by
    show listLeads ("SF:").data (pyStrip raw).data = false
    rw [ht]
    rfl
  have h2 : strStartsWith (pyStrip raw) "FN:" = false := by
    show listLeads ("FN:").data (pyStrip raw).data = false
    rw [ht]
    rfl
  have h3 : strStartsWith (pyStrip raw) "FNDA:" = false := by
    show listLeads ("FNDA:").data (pyStrip raw).data = false
    rw [ht]
    rfl
  have h4 : strStartsWith (pyStrip raw) "DA:" = false := by
    show listLeads ("DA:").data (pyStrip raw).data = false
    rw [ht]
    rfl
  unfold parseLine
  simp only [h1, h2, h3, h4, h5, Bool.false_eq_true, if_false, if_true, hcf,
    modifyRec, hr]
  rcases hsp : splitComma (pyStrip raw) with
    _ | ⟨a, _ | ⟨b, _ | ⟨c2, _ | ⟨d2, _ | ⟨e2, rest5⟩⟩⟩⟩⟩
  · rfl
  · rfl
  · rfl
  · rfl
  · simp [hsp] at hlen
  · rfl

theorem parseLine_brda_falsy (st : ParseState) (raw : String)
    (h5 : strStartsWith (pyStrip raw) "BRDA:" = true)
    (hcf : pyTruthy st.current_file = none) :
    parseLine st raw = some st := by
  obtain ⟨t, ht⟩ := strStartsWith_shape h5
  have h1 : strStartsWith (pyStrip raw) "SF:" = false := by
    show listLeads ("SF:").data (pyStrip raw).data = false
    rw [ht]
    rfl
  have h2 : strStartsWith (pyStrip raw) "FN:" = false := by
    show listLeads ("FN:").data (pyStrip raw).data = false
    rw [ht]
    rfl
  have h3 : strStartsWith (pyStrip raw) "FNDA:" = false := by
    show listLeads ("FNDA:").data (pyStrip raw).data = false
    rw [ht]
    rfl
  have h4 : strStartsWith (pyStrip raw) "DA:" = false := by
    show listLeads ("DA:").data (pyStrip raw).data = false
    rw [ht]
    rfl
  unfold parseLine
  simp only [h1, h2, h3, h4, h5, Bool.false_eq_true, if_false, if_true, hcf]

theorem parseLine_da_badnum1 (st : ParseState) (raw cf p0 p1 : String)
    (h4 : strStartsWith (pyStrip raw) "DA:" = true)
    (hcf : pyTruthy st.current_file = some cf)
    (hsp : splitComma (pyStrip raw) = [p0, p1])
    (hk : pyInt (strDrop p0 3) = none) :
    parseLine st raw = none := by
  obtain ⟨t, ht⟩ := strStartsWith_shape h4
  have h1 : strStartsWith (pyStrip raw) "SF:" = false := by
    show listLeads ("SF:").data (pyStrip raw).data = false
    rw [ht]
    rfl
  have h2 : strStartsWith (pyStrip raw) "FN:" = false := by
    show listLeads ("FN:").data (pyStrip raw).data = false
    rw [ht]
    rfl
  have h3 : strStartsWith (pyStrip raw) "FNDA:" = false := by
    show listLeads ("FNDA:").data (pyStrip raw).data = false
    rw [ht]
    rfl
  unfold parseLine
  simp only [h1, h2, h3, h4, Bool.false_eq_true, if_false, if_true, hcf, hsp, hk]

theorem parseLine_da_badnum2 (st : ParseState) (raw cf p0 p1 : String) (k : Int)
    (h4 : strStartsWith (pyStrip raw) "DA:" = true)
    (hcf : pyTruthy st.current_file = some cf)
    (hsp : splitComma (pyStrip raw) = [p0, p1])
    (hk : pyInt (strDrop p0 3) = some k)
    (hc : pyInt p1 = none) :
    parseLine st raw = none := by
  obtain ⟨t, ht⟩ := strStartsWith_shape h4
  have h1 : strStartsWith (pyStrip raw) "SF:" = false := by
    show listLeads ("SF:").data (pyStrip raw).data = false
    rw [ht]
    rfl
  have h2 : strStartsWith (pyStrip raw) "FN:" = false := by
    show listLeads ("FN:").data (pyStrip raw).data = false
    rw [ht]
    rfl
  have h3 : strStartsWith (pyStrip raw) "FNDA:" = false := by
    show listLeads ("FNDA:").data (pyStrip raw).data = false
    rw [ht]
    rfl
  unfold parseLine
  simp only [h1, h2, h3, h4, Bool.false_eq_true, if_false, if_true, hcf, hsp, hk, hc]

theorem parseLine_fnda_badnum (st : ParseState) (raw cf p0 p1 : String)
    (h3 : strStartsWith (pyStrip raw) "FNDA:" = true)
    (hcf : pyTruthy st.current_file = some cf)
    (hsp : splitCommaOnce (pyStrip raw) = [p0, p1])
    (hk : pyInt (strDrop p0 5) = none) :
    parseLine st raw = none := by
  obtain ⟨t, ht⟩ := strStartsWith_shape h3
  have h1 : strStartsWith (pyStrip raw) "SF:" = false := by
    show listLeads ("SF:").data (pyStrip raw).data = false
    rw [ht]
    rfl
  have h2 : strStartsWith (pyStrip raw) "FN:" = false := by
    show listLeads ("FN:").data (pyStrip raw).data = false
    rw [ht]
    rfl
  unfold parseLine
  simp only [h1, h2, h3, Bool.false_eq_true, if_false, if_true, hcf, hsp, hk]

/-- Well-formedness of one record: each counter dict has unique keys (it is
a dict) and nonnegative counts (every stored value is `max(old-or-0, c)`). -/
def recordWF (r : CoverageRecord) : Prop :=
  ((r.functions.map Prod.fst).Nodup ∧ ∀ kv ∈ r.functions, 0 ≤ kv.2) ∧
  ((r.lines.map Prod.fst).Nodup ∧ ∀ kv ∈ r.lines, 0 ≤ kv.2) ∧
  ((r.branches.map Prod.fst).Nodup ∧ ∀ kv ∈ r.branches, 0 ≤ kv.2)

/-- Well-formedness of a coverage mapping: unique source-file keys and
well-formed records. -/
def dataWF (d : CoverageData) : Prop :=
  (d.map Prod.fst).Nodup ∧ ∀ e ∈ d, recordWF e.2

theorem recordWF_empty : recordWF emptyRecord := by
  simp [recordWF, emptyRecord]

theorem dataWF_nil : dataWF [] := by
  simp [dataWF]

theorem dataWF_record {d : CoverageData} {cf : String} {r : CoverageRecord}
    (h : dataWF d) (hr : alGet d cf = some r) : recordWF r :=
  h.2 _ (alGet_mem hr)

theorem dataWF_append_fresh {d : CoverageData} {cf : String}
    (h : dataWF d) (hcf : alGet d cf = none) : dataWF (d ++ [(cf, emptyRecord)]) := by
  constructor
  · rw [List.map_append]
    simp only [List.map_cons, List.map_nil]
    rw [List.nodup_append]
    refine ⟨h.1, List.nodup_singleton _, ?_⟩
    intro x hx hy
    simp only [List.mem_singleton] at hy
    rw [hy] at hx
    exact (alGet_eq_none_iff d cf).mp hcf hx
  · intro e he
    rcases List.mem_append.mp he with h2 | h2
    · exact h.2 _ h2
    · simp only [List.mem_singleton] at h2
      subst h2
      exact recordWF_empty

theorem dataWF_alSet {d : CoverageData} {cf : String} {r2 : CoverageRecord}
    (h : dataWF d) (hr2 : recordWF r2) : dataWF (alSet d cf r2) := by
  constructor
  · exact nodupKeys_alSet _ _ h.1
  · intro e he
    rcases mem_alSet he with h2 | h2
    · exact h.2 _ h2
    · subst h2
      exact hr2

theorem recordWF_fn {r : CoverageRecord} (line : String) (h : recordWF r) :
    recordWF { r with function_data := r.function_data ++ [line] } := h

theorem recordWF_fnda {r : CoverageRecord} (k : String) (c : Int) (h : recordWF r) :
    recordWF { r with functions := setMax r.functions k c } :=
  ⟨⟨setMax_nodupKeys h.1.1 k c, setMax_nonneg h.1.2 k c⟩, h.2⟩

theorem recordWF_da {r : CoverageRecord} (k : Int) (c : Int) (h : recordWF r) :
    recordWF { r with lines := setMax r.lines k c } :=
  ⟨h.1, ⟨setMax_nodupKeys h.2.1.1 k c, setMax_nonneg h.2.1.2 k c⟩, h.2.2⟩

theorem recordWF_brda {r : CoverageRecord} (line k : String) (c : Int) (h : recordWF r) :
    recordWF { r with branch_data := r.branch_data ++ [line],
                      branches := setMax r.branches k c } :=
  ⟨h.1, h.2.1, ⟨setMax_nodupKeys h.2.2.1 k c, setMax_nonneg h.2.2.2 k c⟩⟩

theorem recordWF_brda_data {r : CoverageRecord} (line : String) (h : recordWF r) :
    recordWF { r with branch_data := r.branch_data ++ [line] } := h

theorem recordWF_brda_counts {r : CoverageRecord} (k : String) (c : Int)
    (h : recordWF r) : recordWF { r with branches := setMax r.branches k c } :=
  ⟨h.1, h.2.1, ⟨setMax_nodupKeys h.2.2.1 k c, setMax_nonneg h.2.2.2 k c⟩⟩

theorem modifyRec_wf {d : CoverageData} {cf : String}
    {f : CoverageRecord → CoverageRecord} {d2 : CoverageData}
    (h : dataWF d) (hf : ∀ r, recordWF r → recordWF (f r))
    (hm : modifyRec d cf f = some d2) : dataWF d2 := by
  unfold modifyRec at hm
  cases hg : alGet d cf with
  | none =>
      rw [hg] at hm
      exact absurd hm (by simp)
  | some r =>
      rw [hg] at hm
      injection hm with hm2
      rw [← hm2]
      exact dataWF_alSet h (hf r (dataWF_record h hg))

theorem parseLine_wf {st : ParseState} {raw : String} {st2 : ParseState}
    (h : dataWF st.coverage_data) (he : parseLine st raw = some st2) :
    dataWF st2.coverage_data := by
  simp only [parseLine] at he
  split at he
  next hsf =>
    split at he
    next hsome =>
      injection he with he2
      rw [← he2]
      exact h
    next hnone =>
      injection he with he2
      rw [← he2]
      refine dataWF_append_fresh h ?_
      cases hg : alGet st.coverage_data (strDrop (pyStrip raw) 3) with
      | none => rfl
      | some r => exact absurd (by rw [hg]; rfl) hnone
  next =>
    split at he
    next =>
      split at he
      next =>
        injection he with he2
        rw [← he2]
        exact h
      next cf hcf =>
        cases hm : modifyRec st.coverage_data cf (fun r =>
            { r with function_data := r.function_data ++ [pyStrip raw] }) with
        | none =>
            rw [hm] at he
            exact absurd he (by simp)
        | some d1 =>
            rw [hm] at he
            simp only [Option.map_some'] at he
            injection he with he2
            rw [← he2]
            exact modifyRec_wf h (fun r hr => recordWF_fn _ hr) hm
    next =>
      split at he
      next =>
        split at he
        next =>
          injection he with he2
          rw [← he2]
          exact h
        next cf hcf =>
          split at he
          next p0 p1 hsp =>
            split at he
            next => exact absurd he (by simp)
            next count hcount =>
              cases hm : modifyRec st.coverage_data cf (fun r =>
                  { r with functions := setMax r.functions p1 count }) with
              | none =>
                  rw [hm] at he
                  exact absurd he (by simp)
              | some d1 =>
                  rw [hm] at he
                  simp only [Option.map_some'] at he
                  injection he with he2
                  rw [← he2]
                  exact modifyRec_wf h (fun r hr => recordWF_fnda _ _ hr) hm
          next =>
            injection he with he2
            rw [← he2]
            exact h
      next =>
        split at he
        next =>
          split at he
          next =>
            injection he with he2
            rw [← he2]
            exact h
          next cf hcf =>
            split at he
            next p0 p1 hsp =>
              split at he
              next => exact absurd he (by simp)
              next line_num hln =>
                split at he
                next => exact absurd he (by simp)
                next count hcount =>
                  cases hm : modifyRec st.coverage_data cf (fun r =>
                      { r with lines := setMax r.lines line_num count }) with
                  | none =>
                      rw [hm] at he
                      exact absurd he (by simp)
                  | some d1 =>
                      rw [hm] at he
                      simp only [Option.map_some'] at he
                      injection he with he2
                      rw [← he2]
                      exact modifyRec_wf h (fun r hr => recordWF_da _ _ hr) hm
            next =>
              injection he with he2
              rw [← he2]
              exact h
        next =>
          split at he
          next =>
            split at he
            next =>
              injection he with he2
              rw [← he2]
              exact h
            next cf hcf =>
              split at he
              next hm1 => exact absurd he (by simp)
              next d1 hm1 =>
                have hd1 : dataWF d1 :=
                  modifyRec_wf h (fun r hr => recordWF_brda_data _ hr) hm1
                split at he
                next p0 p1 p2 p3 hsp =>
                  split at he
                  next => exact absurd he (by simp)
                  next count hcount =>
                    cases hm2 : modifyRec d1 cf (fun r =>
                        { r with branches := (setMax r.branches
                            (strDrop p0 5 ++ ":" ++ p1 ++ ":" ++ p2) count) }) with
                    | none =>
                        rw [hm2] at he
                        exact absurd he (by simp)
                    | some d2 =>
                        rw [hm2] at he
                        simp only [Option.map_some'] at he
                        injection he with he2
                        rw [← he2]
                        exact modifyRec_wf hd1 (fun r hr => recordWF_brda_counts _ _ hr) hm2
                next =>
                  injection he with he2
                  rw [← he2]
                  exact hd1
          next =>
            injection he with he2
            rw [← he2]
            exact h

theorem runLines_wf : ∀ (ls : List String) (st st2 : ParseState),
    dataWF st.coverage_data → runLines st ls = some st2 →
    dataWF st2.coverage_data := by
  intro ls
  induction ls with
  | nil =>
      intro st st2 h he
      rw [runLines] at he
      injection he with he2
      rw [← he2]
      exact h
  | cons l rest ih =>
      intro st st2 h he
      rw [runLines] at he
      cases hp : parseLine st l with
      | none =>
          rw [hp] at he
          exact absurd he (by simp)
      | some st1 =>
          rw [hp] at he
          exact ih st1 st2 (parseLine_wf h hp) he

theorem parse_lcov_file_wf (content : List String) :
    dataWF (parse_lcov_file content) := by
  unfold parse_lcov_file
  cases hr : runLines initState content with
  | none => exact dataWF_nil
  | some st => exact runLines_wf content initState st dataWF_nil hr

/-- Per-source-file counter read-out of a coverage mapping under a chosen
counter projection; 0 when the source file or the key is absent. -/
def projGet {α : Type} [DecidableEq α] (proj : CoverageRecord → List (α × Int))
    (d : CoverageData) (sf : String) (k : α) : Int :=
  match alGet d sf with
  | none => 0
  | some r => getCount (proj r) k

/-- Whether source file `sf`'s record exists and holds key `k` in the
chosen counter dict. -/
def projHas {α : Type} [DecidableEq α] (proj : CoverageRecord → List (α × Int))
    (d : CoverageData) (sf : String) (k : α) : Bool :=
  match alGet d sf with
  | none => false
  | some r => (alGet (proj r) k).isSome

theorem projGet_cons {α : Type} [DecidableEq α]
    (proj : CoverageRecord → List (α × Int)) (e : String × CoverageRecord)
    (rest : CoverageData) (sf : String) (k : α) :
    projGet proj (e :: rest) sf k =
      if sf = e.1 then getCount (proj e.2) k else projGet proj rest sf k := by
  obtain ⟨sf1, r1⟩ := e
  by_cases h : sf = sf1 <;> simp [projGet, alGet, h]

theorem projGet_of_not_mem {α : Type} [DecidableEq α]
    (proj : CoverageRecord → List (α × Int)) {d : CoverageData} {sf : String}
    (h : sf ∉ d.map Prod.fst) (k : α) : projGet proj d sf k = 0 := by
  unfold projGet
  rw [(alGet_eq_none_iff d sf).mpr h]

theorem projHas_cons {α : Type} [DecidableEq α]
    (proj : CoverageRecord → List (α × Int)) (e : String × CoverageRecord)
    (rest : CoverageData) (sf : String) (k : α) :
    projHas proj (e :: rest) sf k =
      if sf = e.1 then (alGet (proj e.2) k).isSome else projHas proj rest sf k := by
  obtain ⟨sf1, r1⟩ := e
  by_cases h : sf = sf1 <;> simp [projHas, alGet, h]

theorem projHas_of_not_mem {α : Type} [DecidableEq α]
    (proj : CoverageRecord → List (α × Int)) {d : CoverageData} {sf : String}
    (h : sf ∉ d.map Prod.fst) (k : α) : projHas proj d sf k = false := by
  unfold projHas
  rw [(alGet_eq_none_iff d sf).mpr h]

/-- All counts under `proj` in every record of `d` are nonnegative. -/
def aggNonneg {α : Type} (proj : CoverageRecord → List (α × Int))
    (d : CoverageData) : Prop :=
  ∀ e ∈ d, ∀ kv ∈ proj e.2, 0 ≤ kv.2

theorem projGet_nonneg {α : Type} [DecidableEq α]
    (proj : CoverageRecord → List (α × Int)) {d : CoverageData}
    (h : aggNonneg proj d) (sf : String) (k : α) : 0 ≤ projGet proj d sf k := by
  unfold projGet
  cases hg : alGet d sf with
  | none => simp
  | some r => exact getCount_nonneg (h _ (alGet_mem hg)) k

theorem projGet_alSet_self {α : Type} [DecidableEq α]
    (proj : CoverageRecord → List (α × Int)) (d : CoverageData) (sf : String)
    (r : CoverageRecord) (k : α) :
    projGet proj (alSet d sf r) sf k = getCount (proj r) k := by
  unfold projGet
  rw [alGet_alSet_self]

theorem projGet_alSet_ne {α : Type} [DecidableEq α]
    (proj : CoverageRecord → List (α × Int)) (d : CoverageData) (sf sf2 : String)
    (r : CoverageRecord) (k : α) (h : sf2 ≠ sf) :
    projGet proj (alSet d sf r) sf2 k = projGet proj d sf2 k := by
  unfold projGet
  rw [alGet_alSet_ne _ _ _ _ h]

theorem projHas_alSet_self {α : Type} [DecidableEq α]
    (proj : CoverageRecord → List (α × Int)) (d : CoverageData) (sf : String)
    (r : CoverageRecord) (k : α) :
    projHas proj (alSet d sf r) sf k = (alGet (proj r) k).isSome := by
  unfold projHas
  rw [alGet_alSet_self]

theorem projHas_alSet_ne {α : Type} [DecidableEq α]
    (proj : CoverageRecord → List (α × Int)) (d : CoverageData) (sf sf2 : String)
    (r : CoverageRecord) (k : α) (h : sf2 ≠ sf) :
    projHas proj (alSet d sf r) sf2 k = projHas proj d sf2 k := by
  unfold projHas
  rw [alGet_alSet_ne _ _ _ _ h]

theorem projGet_mergeEntry {α : Type} [DecidableEq α]
    (proj : CoverageRecord → List (α × Int))
    (hm : ∀ b i, proj (mergeRecords b i) = mergeCounts (proj b) (proj i))
    (hs : ∀ i, proj (seedRecord i) = [])
    {agg : CoverageData} (hnn : aggNonneg proj agg)
    (e : String × CoverageRecord) (hnd : ((proj e.2).map Prod.fst).Nodup)
    (sf : String) (k : α) :
    projGet proj (mergeEntry agg e) sf k =
      if sf = e.1 then max (projGet proj agg sf k) (getCount (proj e.2) k)
      else projGet proj agg sf k := by
  simp only [mergeEntry]
  by_cases h : sf = e.1
  · rw [if_pos h, h, projGet_alSet_self, hm]
    cases hg : alGet agg e.1 with
    | none =>
        simp only [Option.getD_none]
        rw [getCount_mergeCounts (proj e.2) _ (by rw [hs]; intro kv hkv; simp at hkv) hnd k]
        rw [hs]
        unfold projGet
        rw [hg]
        rfl
    | some r =>
        simp only [Option.getD_some]
        rw [getCount_mergeCounts (proj e.2) _ (hnn _ (alGet_mem hg)) hnd k]
        unfold projGet
        rw [hg]
  · rw [if_neg h, projGet_alSet_ne _ _ _ _ _ _ h]

theorem projHas_mergeEntry {α : Type} [DecidableEq α]
    (proj : CoverageRecord → List (α × Int))
    (hm : ∀ b i, proj (mergeRecords b i) = mergeCounts (proj b) (proj i))
    (hs : ∀ i, proj (seedRecord i) = [])
    (agg : CoverageData) (e : String × CoverageRecord) (sf : String) (k : α) :
    projHas proj (mergeEntry agg e) sf k =
      if sf = e.1 then (projHas proj agg sf k || (alGet (proj e.2) k).isSome)
      else projHas proj agg sf k := by
  simp only [mergeEntry]
  by_cases h : sf = e.1
  · rw [if_pos h, h, projHas_alSet_self, hm, isSome_mergeCounts]
    cases hg : alGet agg e.1 with
    | none =>
        simp only [Option.getD_none]
        rw [hs]
        unfold projHas
        rw [hg]
        simp [alGet]
    | some r =>
        simp only [Option.getD_some]
        unfold projHas
        rw [hg]
  · rw [if_neg h, projHas_alSet_ne _ _ _ _ _ _ h]

theorem aggNonneg_mergeEntry {α : Type} [DecidableEq α]
    (proj : CoverageRecord → List (α × Int))
    (hm : ∀ b i, proj (mergeRecords b i) = mergeCounts (proj b) (proj i))
    (hs : ∀ i, proj (seedRecord i) = [])
    {agg : CoverageData} (hnn : aggNonneg proj agg) (e : String × CoverageRecord) :
    aggNonneg proj (mergeEntry agg e) := by
  simp only [mergeEntry]
  intro e2 he2
  rcases mem_alSet he2 with h2 | h2
  · exact hnn _ h2
  · subst h2
    simp only [hm]
    apply mergeCounts_nonneg
    cases hg : alGet agg e.1 with
    | none =>
        simp only [Option.getD_none]
        rw [hs]
        intro kv hkv
        simp at hkv
    | some r =>
        simp only [Option.getD_some]
        exact hnn _ (alGet_mem hg)

theorem aggNonneg_mergeOneFile {α : Type} [DecidableEq α]
    (proj : CoverageRecord → List (α × Int))
    (hm : ∀ b i, proj (mergeRecords b i) = mergeCounts (proj b) (proj i))
    (hs : ∀ i, proj (seedRecord i) = [])
    (inc : CoverageData) :
    ∀ {agg : CoverageData}, aggNonneg proj agg →
      aggNonneg proj (mergeOneFile agg inc) := by
  induction inc with
  | nil => intro agg hnn; exact hnn
  | cons e rest ih =>
      intro agg hnn
      exact ih (aggNonneg_mergeEntry proj hm hs hnn e)

theorem projGet_mergeOneFile {α : Type} [DecidableEq α]
    (proj : CoverageRecord → List (α × Int))
    (hm : ∀ b i, proj (mergeRecords b i) = mergeCounts (proj b) (proj i))
    (hs : ∀ i, proj (seedRecord i) = [])
    (inc : CoverageData) :
    ∀ {agg : CoverageData}, aggNonneg proj agg →
      (inc.map Prod.fst).Nodup →
      (∀ e ∈ inc, ((proj e.2).map Prod.fst).Nodup) →
      ∀ (sf : String) (k : α),
      projGet proj (mergeOneFile agg inc) sf k =
        max (projGet proj agg sf k) (projGet proj inc sf k) := by
  induction inc with
  | nil =>
      intro agg hnn _ _ sf k
      have h0 : projGet proj ([] : CoverageData) sf k = 0 := rfl
      have h1 : mergeOneFile agg [] = agg := rfl
      rw [h0, h1]
      exact (max_eq_left (projGet_nonneg proj hnn sf k)).symm
  | cons e rest ih =>
      intro agg hnn htn hnd sf k
      simp only [List.map_cons, List.nodup_cons] at htn
      have hstep : mergeOneFile agg (e :: rest) = mergeOneFile (mergeEntry agg e) rest := rfl
      rw [hstep, ih (aggNonneg_mergeEntry proj hm hs hnn e) htn.2
        (fun e2 he2 => hnd e2 (List.mem_cons_of_mem _ he2)) sf k]
      rw [projGet_mergeEntry proj hm hs hnn e (hnd e (List.mem_cons_self e rest)) sf k]
      rw [projGet_cons]
      by_cases h : sf = e.1
      · rw [if_pos h, if_pos h]
        have h2 : projGet proj rest sf k = 0 :=
          projGet_of_not_mem proj (by rw [h]; exact htn.1) k
        rw [h2]
        exact max_eq_left (le_trans (projGet_nonneg proj hnn sf k) (le_max_left _ _))
      · rw [if_neg h, if_neg h]

theorem projHas_mergeOneFile {α : Type} [DecidableEq α]
    (proj : CoverageRecord → List (α × Int))
    (hm : ∀ b i, proj (mergeRecords b i) = mergeCounts (proj b) (proj i))
    (hs : ∀ i, proj (seedRecord i) = [])
    (inc : CoverageData) :
    ∀ {agg : CoverageData}, (inc.map Prod.fst).Nodup →
      ∀ (sf : String) (k : α),
      projHas proj (mergeOneFile agg inc) sf k =
        (projHas proj agg sf k || projHas proj inc sf k) := by
  induction inc with
  | nil =>
      intro agg _ sf k
      have h0 : projHas proj ([] : CoverageData) sf k = false := rfl
      have h1 : mergeOneFile agg [] = agg := rfl
      rw [h0, h1, Bool.or_false]
  | cons e rest ih =>
      intro agg htn sf k
      simp only [List.map_cons, List.nodup_cons] at htn
      have hstep : mergeOneFile agg (e :: rest) = mergeOneFile (mergeEntry agg e) rest := rfl
      rw [hstep, ih htn.2 sf k, projHas_mergeEntry proj hm hs agg e sf k, projHas_cons]
      by_cases h : sf = e.1
      · rw [if_pos h, if_pos h]
        have h2 : projHas proj rest sf k = false :=
          projHas_of_not_mem proj (by rw [h]; exact htn.1) k
        rw [h2, Bool.or_false]
      · rw [if_neg h, if_neg h]

theorem projGet_foldl_mergeStep {α : Type} [DecidableEq α]
    (proj : CoverageRecord → List (α × Int))
    (hm : ∀ b i, proj (mergeRecords b i) = mergeCounts (proj b) (proj i))
    (hs : ∀ i, proj (seedRecord i) = [])
    (hrw : ∀ r, recordWF r → ((proj r).map Prod.fst).Nodup ∧ ∀ kv ∈ proj r, 0 ≤ kv.2)
    (inputs : List (Option (List String))) :
    ∀ (agg : CoverageData), aggNonneg proj agg → ∀ (sf : String) (k : α),
      projGet proj (inputs.foldl mergeStep agg) sf k =
        ((inputs.filterMap id).map
          (fun c => projGet proj (parse_lcov_file c) sf k)).foldl max
          (projGet proj agg sf k) := by
  induction inputs with
  | nil => intro agg hnn sf k; rfl
  | cons inp rest ih =>
      intro agg hnn sf k
      cases inp with
      | none =>
          rw [List.foldl_cons]
          have h1 : mergeStep agg none = agg := rfl
          rw [h1, ih agg hnn sf k]
          rfl
      | some c =>
          have hwf := parse_lcov_file_wf c
          have hnn2 : aggNonneg proj (parse_lcov_file c) :=
            fun e he => (hrw _ (hwf.2 e he)).2
          have hnd2 : ∀ e ∈ parse_lcov_file c, ((proj e.2).map Prod.fst).Nodup :=
            fun e he => (hrw _ (hwf.2 e he)).1
          rw [List.foldl_cons]
          have h1 : mergeStep agg (some c) = mergeOneFile agg (parse_lcov_file c) := rfl
          rw [h1, ih _ (aggNonneg_mergeOneFile proj hm hs _ hnn) sf k]
          rw [projGet_mergeOneFile proj hm hs _ hnn hwf.1 hnd2 sf k]
          rfl

theorem projHas_foldl_mergeStep {α : Type} [DecidableEq α]
    (proj : CoverageRecord → List (α × Int))
    (hm : ∀ b i, proj (mergeRecords b i) = mergeCounts (proj b) (proj i))
    (hs : ∀ i, proj (seedRecord i) = [])
    (inputs : List (Option (List String))) :
    ∀ (agg : CoverageData) (sf : String) (k : α),
      projHas proj (inputs.foldl mergeStep agg) sf k =
        (projHas proj agg sf k ||
          (inputs.filterMap id).any (fun c => projHas proj (parse_lcov_file c) sf k)) := by
  induction inputs with
  | nil =>
      intro agg sf k
      simp
  | cons inp rest ih =>
      intro agg sf k
      cases inp with
      | none =>
          rw [List.foldl_cons]
          have h1 : mergeStep agg none = agg := rfl
          rw [h1, ih agg sf k]
          rfl
      | some c =>
          have hwf := parse_lcov_file_wf c
          rw [List.foldl_cons]
          have h1 : mergeStep agg (some c) = mergeOneFile agg (parse_lcov_file c) := rfl
          rw [h1, ih _ sf k]
          rw [projHas_mergeOneFile proj hm hs _ hwf.1 sf k]
          have h2 : (some c :: rest).filterMap id = c :: rest.filterMap id := rfl
          rw [h2, List.any_cons, Bool.or_assoc]

theorem aggNonneg_nil {α : Type} (proj : CoverageRecord → List (α × Int)) :
    aggNonneg proj [] :=
  fun e he => absurd he (List.not_mem_nil e)

theorem linesGet_merge (inputs : List (Option (List String))) (sf : String) (k : Int) :
    projGet CoverageRecord.lines (merge_coverage_files inputs) sf k =
      ((inputs.filterMap id).map
        (fun c => projGet CoverageRecord.lines (parse_lcov_file c) sf k)).foldl max 0 :=
  projGet_foldl_mergeStep CoverageRecord.lines (fun _ _ => rfl) (fun _ => rfl)
    (fun _ h => h.2.1) inputs [] (aggNonneg_nil _) sf k

theorem functionsGet_merge (inputs : List (Option (List String))) (sf name : String) :
    projGet CoverageRecord.functions (merge_coverage_files inputs) sf name =
      ((inputs.filterMap id).map
        (fun c => projGet CoverageRecord.functions (parse_lcov_file c) sf name)).foldl max 0 :=
  projGet_foldl_mergeStep CoverageRecord.functions (fun _ _ => rfl) (fun _ => rfl)
    (fun _ h => h.1) inputs [] (aggNonneg_nil _) sf name

theorem branchesGet_merge (inputs : List (Option (List String))) (sf bk : String) :
    projGet CoverageRecord.branches (merge_coverage_files inputs) sf bk =
      ((inputs.filterMap id).map
        (fun c => projGet CoverageRecord.branches (parse_lcov_file c) sf bk)).foldl max 0 :=
  projGet_foldl_mergeStep CoverageRecord.branches (fun _ _ => rfl) (fun _ => rfl)
    (fun _ h => h.2.2) inputs [] (aggNonneg_nil _) sf bk

theorem linesHas_merge (inputs : List (Option (List String))) (sf : String) (k : Int) :
    projHas CoverageRecord.lines (merge_coverage_files inputs) sf k =
      (inputs.filterMap id).any
        (fun c => projHas CoverageRecord.lines (parse_lcov_file c) sf k) :=
  projHas_foldl_mergeStep CoverageRecord.lines (fun _ _ => rfl) (fun _ => rfl)
    inputs [] sf k

theorem functionsHas_merge (inputs : List (Option (List String))) (sf name : String) :
    projHas CoverageRecord.functions (merge_coverage_files inputs) sf name =
      (inputs.filterMap id).any
        (fun c => projHas CoverageRecord.functions (parse_lcov_file c) sf name) :=
  projHas_foldl_mergeStep CoverageRecord.functions (fun _ _ => rfl) (fun _ => rfl)
    inputs [] sf name

theorem branchesHas_merge (inputs : List (Option (List String))) (sf bk : String) :
    projHas CoverageRecord.branches (merge_coverage_files inputs) sf bk =
      (inputs.filterMap id).any
        (fun c => projHas CoverageRecord.branches (parse_lcov_file c) sf bk) :=
  projHas_foldl_mergeStep CoverageRecord.branches (fun _ _ => rfl) (fun _ => rfl)
    inputs [] sf bk

theorem foldl_max_perm {l1 l2 : List Int} (h : l1.Perm l2) :
    ∀ a : Int, l1.foldl max a = l2.foldl max a := by
  induction h with
  | nil => intro a; rfl
  | cons x _ ih =>
      intro a
      simp only [List.foldl_cons]
      exact ih _
  | swap x y l =>
      intro a
      simp only [List.foldl_cons]
      rw [sup_right_comm]
  | trans _ _ ih1 ih2 =>
      intro a
      rw [ih1 a, ih2 a]

theorem any_perm {α : Type} {l1 l2 : List α} (h : l1.Perm l2) (p : α → Bool) :
    l1.any p = l2.any p := by
  induction h with
  | nil => rfl
  | cons x _ ih => simp only [List.any_cons, ih]
  | swap x y l =>
      simp only [List.any_cons]
      rw [Bool.or_left_comm]
  | trans _ _ ih1 ih2 => rw [ih1, ih2]

theorem filterMap_id_map_some {α : Type} (l : List α) :
    (l.map some).filterMap id = l := by
  induction l with
  | nil => rfl
  | cons x rest ih =>
      have h : ((x :: rest).map some).filterMap id = x :: (rest.map some).filterMap id := rfl
      rw [h, ih]

theorem write_foldl_acc : ∀ (d : CoverageData) (out : List String),
    d.foldl (fun o e => o ++ recordBlock e) out = out ++ write_merged_lcov d := by
  intro d
  induction d with
  | nil => intro out; simp [write_merged_lcov]
  | cons e rest ih =>
      intro out
      have h1 : write_merged_lcov (e :: rest) =
          (rest.foldl (fun o e2 => o ++ recordBlock e2) (recordBlock e)) := by
        simp [write_merged_lcov]
      rw [List.foldl_cons, ih (out ++ recordBlock e), h1, ih (recordBlock e),
        List.append_assoc]

theorem write_append (d1 d2 : CoverageData) :
    write_merged_lcov (d1 ++ d2) = write_merged_lcov d1 ++ write_merged_lcov d2 := by
  unfold write_merged_lcov
  rw [List.foldl_append]
  rw [show List.foldl (fun o e => o ++ recordBlock e) [] d1 = write_merged_lcov d1 from rfl]
  exact write_foldl_acc d2 (write_merged_lcov d1)

theorem write_singleton (e : String × CoverageRecord) :
    write_merged_lcov [e] = recordBlock e := by
  simp [write_merged_lcov]

theorem mem_insertPair (kv : Int × Int) :
    ∀ (l : List (Int × Int)) (x : Int × Int), x ∈ insertPair kv l → x = kv ∨ x ∈ l := by
  intro l
  induction l with
  | nil =>
      intro x hx
      simp [insertPair] at hx
      simp [hx]
  | cons y rest ih =>
      intro x hx
      rw [insertPair] at hx
      by_cases h : pairLe kv y = true
      · rw [if_pos h] at hx
        rcases List.mem_cons.mp hx with hx | hx
        · exact Or.inl hx
        · exact Or.inr hx
      · rw [if_neg h] at hx
        rcases List.mem_cons.mp hx with hx | hx
        · exact Or.inr (by simp [hx])
        · rcases ih x hx with h2 | h2
          · exact Or.inl h2
          · exact Or.inr (List.mem_cons_of_mem _ h2)

theorem keyLe_of_pairLe {a b : Int × Int} (h : pairLe a b = true) : a.1 ≤ b.1 := by
  unfold pairLe at h
  rw [Bool.or_eq_true, Bool.and_eq_true] at h
  rcases h with h | h
  · exact le_of_lt (of_decide_eq_true h)
  · exact le_of_eq (of_decide_eq_true h.1)

theorem keyLe_of_not_pairLe {a b : Int × Int} (h : pairLe a b = false) : b.1 ≤ a.1 := by
  unfold pairLe at h
  rw [Bool.or_eq_false_iff] at h
  have h2 := of_decide_eq_false h.1
  omega

theorem pairwise_insertPair (kv : Int × Int) :
    ∀ (l : List (Int × Int)),
      List.Pairwise (fun a b : Int × Int => a.1 ≤ b.1) l →
      List.Pairwise (fun a b : Int × Int => a.1 ≤ b.1) (insertPair kv l) := by
  intro l
  induction l with
  | nil =>
      intro _
      simp [insertPair]
  | cons y rest ih =>
      intro h
      rw [List.pairwise_cons] at h
      rw [insertPair]
      by_cases hle : pairLe kv y = true
      · rw [if_pos hle]
        rw [List.pairwise_cons]
        constructor
        · intro x hx
          rcases List.mem_cons.mp hx with hx | hx
          · rw [hx]
            exact keyLe_of_pairLe hle
          · exact le_trans (keyLe_of_pairLe hle) (h.1 x hx)
        · rw [List.pairwise_cons]
          exact h
      · rw [if_neg hle]
        rw [List.pairwise_cons]
        constructor
        · intro x hx
          rcases mem_insertPair kv rest x hx with h2 | h2
          · rw [h2]
            exact keyLe_of_not_pairLe (Bool.eq_false_iff.mpr hle)
          · exact h.1 x h2
        · exact ih h.2

theorem sortPairs_pairwise (l : List (Int × Int)) :
    List.Pairwise (fun a b : Int × Int => a.1 ≤ b.1) (sortPairs l) := by
  induction l with
  | nil => simp [sortPairs]
  | cons kv rest ih =>
      have h : sortPairs (kv :: rest) = insertPair kv (sortPairs rest) := rfl
      rw [h]
      exact pairwise_insertPair kv _ ih

theorem sortPairs_keys_sorted (l : List (Int × Int)) :
    List.Pairwise (fun a b : Int => a ≤ b) ((sortPairs l).map Prod.fst) := by
  rw [List.pairwise_map]
  exact sortPairs_pairwise l

theorem count_dedupSeen :
    ∀ (l seen : List String) (x : String),
      (dedupSeen l seen).count x =
        if x ∈ seen then 0 else if x ∈ l then 1 else 0 := by
  intro l
  induction l with
  | nil =>
      intro seen x
      by_cases h : x ∈ seen <;> simp [dedupSeen, h]
  | cons y rest ih =>
      intro seen x
      rw [dedupSeen]
      by_cases hy : y ∈ seen
      · rw [if_pos hy, ih seen x]
        by_cases hx : x ∈ seen
        · simp [hx]
        · have hxy : x ≠ y := fun h => hx (h ▸ hy)
          simp [hx, hxy, List.mem_cons]
      · rw [if_neg hy, List.count_cons, ih (y :: seen) x]
        by_cases hxy : x = y
        · subst hxy
          simp [hy]
        · have hyx : ¬y = x := fun h => hxy h.symm
          by_cases hx : x ∈ seen
          · simp [hx, hxy, hyx, List.mem_cons]
          · simp [hx, hxy, hyx, List.mem_cons]

theorem dedupFirst_count {l : List String} {x : String} :
    (dedupFirst l).count x = if x ∈ l then 1 else 0 := by
  rw [dedupFirst, count_dedupSeen l [] x]
  simp

theorem dedupSeen_sublist : ∀ (l seen : List String), (dedupSeen l seen).Sublist l := by
  intro l
  induction l with
  | nil => intro seen; simp [dedupSeen]
  | cons y rest ih =>
      intro seen
      rw [dedupSeen]
      by_cases hy : y ∈ seen
      · rw [if_pos hy]
        exact List.Sublist.cons y (ih seen)
      · rw [if_neg hy]
        exact List.Sublist.cons₂ y (ih (y :: seen))

theorem dedupFirst_sublist (l : List String) : (dedupFirst l).Sublist l :=
  dedupSeen_sublist l []

theorem coveredCount_lt_length {α : Type} (b : List (α × Int)) (k : α)
    (h : (k, (0 : Int)) ∈ b) : coveredCount b < b.length := by
  unfold coveredCount
  induction b with
  | nil => simp at h
  | cons e rest ih =>
      rcases List.mem_cons.mp h with h2 | h2
      · have he : e.2 = 0 := by rw [← h2]
        simp only [List.map_cons, List.filter_cons, he]
        norm_num
        calc ((rest.map Prod.snd).filter (fun c => decide (0 < c))).length
            ≤ (rest.map Prod.snd).length := List.length_filter_le _ _
          _ = rest.length := by rw [List.length_map]
          _ < (e :: rest).length := by simp
      · have hlt := ih h2
        simp only [List.map_cons, List.filter_cons]
        by_cases hp : (0 : Int) < e.2
        · simp only [List.length_cons]
          simp [hp]
          omega
        · simp only [List.length_cons]
          simp [hp]
          omega

/-- C1: for every list of input files, every source-file path and every
countable key (line number, function name, branch key), the count in the
merged aggregate equals the maximum of the counts observed for that key
across all parsed inputs (a fold of `max` from 0 over the per-input
parsed counts, which are all nonnegative), never their sum; and in the
spec's end-to-end scenario (input A: SF:x.c with DA:1,5 and DA:2,0;
input B: SF:x.c with DA:1,2 and DA:3,4) the serialized merged output for
x.c contains DA:1,5, DA:2,0, DA:3,4, LF:3 and LH:2. -/
theorem c1_merge_is_max_not_sum :
    (∀ (inputs : List (Option (List String))) (sf : String) (k : Int),
      projGet CoverageRecord.lines (merge_coverage_files inputs) sf k =
        ((inputs.filterMap id).map
          (fun c => projGet CoverageRecord.lines (parse_lcov_file c) sf k)).foldl max 0)
    ∧ (∀ (inputs : List (Option (List String))) (sf name : String),
      projGet CoverageRecord.functions (merge_coverage_files inputs) sf name =
        ((inputs.filterMap id).map
          (fun c => projGet CoverageRecord.functions (parse_lcov_file c) sf name)).foldl max 0)
    ∧ (∀ (inputs : List (Option (List String))) (sf bk : String),
      projGet CoverageRecord.branches (merge_coverage_files inputs) sf bk =
        ((inputs.filterMap id).map
          (fun c => projGet CoverageRecord.branches (parse_lcov_file c) sf bk)).foldl max 0)
    ∧ ("DA:1,5" ∈ write_merged_lcov (merge_coverage_files
          [some ["SF:x.c", "DA:1,5", "DA:2,0"], some ["SF:x.c", "DA:1,2", "DA:3,4"]])
      ∧ "DA:2,0" ∈ write_merged_lcov (merge_coverage_files
          [some ["SF:x.c", "DA:1,5", "DA:2,0"], some ["SF:x.c", "DA:1,2", "DA:3,4"]])
      ∧ "DA:3,4" ∈ write_merged_lcov (merge_coverage_files
          [some ["SF:x.c", "DA:1,5", "DA:2,0"], some ["SF:x.c", "DA:1,2", "DA:3,4"]])
      ∧ "LF:3" ∈ write_merged_lcov (merge_coverage_files
          [some ["SF:x.c", "DA:1,5", "DA:2,0"], some ["SF:x.c", "DA:1,2", "DA:3,4"]])
      ∧ "LH:2" ∈ write_merged_lcov (merge_coverage_files
          [some ["SF:x.c", "DA:1,5", "DA:2,0"], some ["SF:x.c", "DA:1,2", "DA:3,4"]])) := by
  refine ⟨linesGet_merge, functionsGet_merge, branchesGet_merge, ?_⟩
  refine ⟨by decide, by decide, by decide, by decide, by decide⟩

/-- C2: for every list of parseable inputs and every permutation of that
list, merging yields identical functionCounts, lineCounts and
branchCounts for every source-file path: for each key, both the stored
count and the key's presence agree between the two merge orders. -/
theorem c2_merge_order_independent (cs1 cs2 : List (List String))
    (hp : cs1.Perm cs2) (sf : String) :
    (∀ name : String,
      projGet CoverageRecord.functions (merge_coverage_files (cs1.map some)) sf name =
        projGet CoverageRecord.functions (merge_coverage_files (cs2.map some)) sf name ∧
      projHas CoverageRecord.functions (merge_coverage_files (cs1.map some)) sf name =
        projHas CoverageRecord.functions (merge_coverage_files (cs2.map some)) sf name)
    ∧ (∀ k : Int,
      projGet CoverageRecord.lines (merge_coverage_files (cs1.map some)) sf k =
        projGet CoverageRecord.lines (merge_coverage_files (cs2.map some)) sf k ∧
      projHas CoverageRecord.lines (merge_coverage_files (cs1.map some)) sf k =
        projHas CoverageRecord.lines (merge_coverage_files (cs2.map some)) sf k)
    ∧ (∀ bk : String,
      projGet CoverageRecord.branches (merge_coverage_files (cs1.map some)) sf bk =
        projGet CoverageRecord.branches (merge_coverage_files (cs2.map some)) sf bk ∧
      projHas CoverageRecord.branches (merge_coverage_files (cs1.map some)) sf bk =
        projHas CoverageRecord.branches (merge_coverage_files (cs2.map some)) sf bk) := by
  refine ⟨fun name => ⟨?_, ?_⟩, fun k => ⟨?_, ?_⟩, fun bk => ⟨?_, ?_⟩⟩
  · rw [functionsGet_merge, functionsGet_merge,
      filterMap_id_map_some, filterMap_id_map_some]
    exact foldl_max_perm (hp.map _) 0
  · rw [functionsHas_merge, functionsHas_merge,
      filterMap_id_map_some, filterMap_id_map_some]
    exact any_perm hp _
  · rw [linesGet_merge, linesGet_merge, filterMap_id_map_some, filterMap_id_map_some]
    exact foldl_max_perm (hp.map _) 0
  · rw [linesHas_merge, linesHas_merge, filterMap_id_map_some, filterMap_id_map_some]
    exact any_perm hp _
  · rw [branchesGet_merge, branchesGet_merge,
      filterMap_id_map_some, filterMap_id_map_some]
    exact foldl_max_perm (hp.map _) 0
  · rw [branchesHas_merge, branchesHas_merge,
      filterMap_id_map_some, filterMap_id_map_some]
    exact any_perm hp _

/-- Witness for C2 at a concrete pair of inputs in both orders. -/
theorem c2_merge_order_independent_witness :
    ([["SF:x.c", "DA:1,5"], ["SF:x.c", "DA:1,2", "DA:3,4"]].Perm
      [["SF:x.c", "DA:1,2", "DA:3,4"], ["SF:x.c", "DA:1,5"]])
    ∧ projGet CoverageRecord.lines (merge_coverage_files
        ([["SF:x.c", "DA:1,5"], ["SF:x.c", "DA:1,2", "DA:3,4"]].map some)) "x.c" 1 =
      projGet CoverageRecord.lines (merge_coverage_files
        ([["SF:x.c", "DA:1,2", "DA:3,4"], ["SF:x.c", "DA:1,5"]].map some)) "x.c" 1 :=
  ⟨List.Perm.swap _ _ _,
   ((c2_merge_order_independent _ _ (List.Perm.swap _ _ _) "x.c").2.1 1).1⟩

/-- C3: within one run of parse_lcov_file, a second SF: marker for an
already-seen path only resets the current-file pointer and leaves the
stored record untouched (data keeps accumulating into the same entry);
a duplicate FNDA:/DA:/BRDA: entry for an existing key stores
`max(old, new)`, never the sum; and counter keys stay unique per source
file in every parse result. -/
theorem c3_duplicate_records_accumulate :
    (∀ (st : ParseState) (raw : String) (r : CoverageRecord),
      strStartsWith (pyStrip raw) "SF:" = true →
      alGet st.coverage_data (strDrop (pyStrip raw) 3) = some r →
      parseLine st raw =
        some { st with current_file := some (strDrop (pyStrip raw) 3) })
    ∧ (∀ (st : ParseState) (raw cf p0 p1 : String) (r : CoverageRecord) (k c : Int),
      strStartsWith (pyStrip raw) "DA:" = true →
      pyTruthy st.current_file = some cf →
      splitComma (pyStrip raw) = [p0, p1] →
      pyInt (strDrop p0 3) = some k →
      pyInt p1 = some c →
      alGet st.coverage_data cf = some r →
      parseLine st raw = some { st with coverage_data := (alSet st.coverage_data cf
        { r with lines := setMax r.lines k c }) } ∧
      getCount (setMax r.lines k c) k = max (getCount r.lines k) c)
    ∧ (∀ (st : ParseState) (raw cf p0 p1 : String) (r : CoverageRecord) (c : Int),
      strStartsWith (pyStrip raw) "FNDA:" = true →
      pyTruthy st.current_file = some cf →
      splitCommaOnce (pyStrip raw) = [p0, p1] →
      pyInt (strDrop p0 5) = some c →
      alGet st.coverage_data cf = some r →
      parseLine st raw = some { st with coverage_data := (alSet st.coverage_data cf
        { r with functions := setMax r.functions p1 c }) } ∧
      getCount (setMax r.functions p1 c) p1 = max (getCount r.functions p1) c)
    ∧ (∀ (st : ParseState) (raw cf p0 p1 p2 p3 : String) (r : CoverageRecord) (c : Int),
      strStartsWith (pyStrip raw) "BRDA:" = true →
      pyTruthy st.current_file = some cf →
      splitComma (pyStrip raw) = [p0, p1, p2, p3] →
      (if p3 = "-" then some (0 : Int) else pyInt p3) = some c →
      alGet st.coverage_data cf = some r →
      parseLine st raw = some { st with coverage_data := (alSet st.coverage_data cf
        { r with branch_data := r.branch_data ++ [pyStrip raw],
                 branches := (setMax r.branches
                   (strDrop p0 5 ++ ":" ++ p1 ++ ":" ++ p2) c) }) } ∧
      getCount (setMax r.branches (strDrop p0 5 ++ ":" ++ p1 ++ ":" ++ p2) c)
          (strDrop p0 5 ++ ":" ++ p1 ++ ":" ++ p2) =
        max (getCount r.branches (strDrop p0 5 ++ ":" ++ p1 ++ ":" ++ p2)) c)
    ∧ (∀ (content : List String) (sf : String) (r : CoverageRecord),
      alGet (parse_lcov_file content) sf = some r →
      ((r.functions.map Prod.fst).Nodup ∧ (r.lines.map Prod.fst).Nodup ∧
        (r.branches.map Prod.fst).Nodup)) := by
  refine ⟨parseLine_sf_existing, ?_, ?_, ?_, ?_⟩
  · intro st raw cf p0 p1 r k c h1 h2 h3 h4 h5 h6
    exact ⟨parseLine_da st raw cf p0 p1 r k c h1 h2 h3 h4 h5 h6,
      getCount_setMax_self _ _ _⟩
  · intro st raw cf p0 p1 r c h1 h2 h3 h4 h5
    exact ⟨parseLine_fnda st raw cf p0 p1 r c h1 h2 h3 h4 h5,
      getCount_setMax_self _ _ _⟩
  · intro st raw cf p0 p1 p2 p3 r c h1 h2 h3 h4 h5
    exact ⟨parseLine_brda st raw cf p0 p1 p2 p3 r c h1 h2 h3 h4 h5,
      getCount_setMax_self _ _ _⟩
  · intro content sf r hr
    have hwf := dataWF_record (parse_lcov_file_wf content) hr
    exact ⟨hwf.1.1, hwf.2.1.1, hwf.2.2.1⟩

/-- Witness for C3: a duplicate SF: marker for x.c keeps the record, and a
duplicate DA: entry for line 1 stores max(3, 5) = 5. -/
theorem c3_duplicate_records_accumulate_witness :
    (parseLine ⟨[("x.c", ⟨[], [(1, 3)], [], [], []⟩)], some "x.c"⟩ "SF:x.c" =
      some ⟨[("x.c", ⟨[], [(1, 3)], [], [], []⟩)], some "x.c"⟩)
    ∧ (parseLine ⟨[("x.c", ⟨[], [(1, 3)], [], [], []⟩)], some "x.c"⟩ "DA:1,5" =
      some ⟨[("x.c", ⟨[], [(1, 5)], [], [], []⟩)], some "x.c"⟩) := by
  constructor
  · exact (c3_duplicate_records_accumulate).1
      ⟨[("x.c", ⟨[], [(1, 3)], [], [], []⟩)], some "x.c"⟩ "SF:x.c"
      ⟨[], [(1, 3)], [], [], []⟩ (by decide) (by decide)
  · have h := ((c3_duplicate_records_accumulate).2.1
      ⟨[("x.c", ⟨[], [(1, 3)], [], [], []⟩)], some "x.c"⟩ "DA:1,5" "x.c" "DA:1" "5"
      ⟨[], [(1, 3)], [], [], []⟩ 1 5
      (by decide) (by decide) (by decide) (by decide) (by decide) (by decide)).1
    rw [h]
    decide

/-- C4 counterexample: the claim says a BRDA: line with a wrong field
count "changes no parsed state", but parse_lcov_file appends every BRDA:
line to branch_data before checking its field count (line 55 precedes the
length test of line 57), so parsing ["SF:x.c", "BRDA:1,0,0"] (three
fields, not four) differs from parsing just ["SF:x.c"]: the malformed
line is recorded verbatim in branch_data. -/
theorem c4_malformed_brda_counterexample :
    (parse_lcov_file ["SF:x.c", "BRDA:1,0,0"] ≠ parse_lcov_file ["SF:x.c"])
    ∧ (alGet (parse_lcov_file ["SF:x.c", "BRDA:1,0,0"]) "x.c").map
        CoverageRecord.branch_data = some ["BRDA:1,0,0"] := by
  constructor
  · decide
  · decide

/-- C4 (amended): a DA: line that does not split into exactly 2
comma-separated fields and a FNDA: line that does not split into exactly
2 fields at the first comma are silently skipped, changing no parsed
state, and parsing continues; a BRDA: line with a field count other than
4 contributes no branch count and is not reported either, but when a
truthy current file with an existing record is set it is still appended
verbatim to that record's branch_data (with no current file it, too,
changes nothing); none of these abort the merge. -/
theorem c4_amended_malformed_lines (st : ParseState) (raw : String) :
    (strStartsWith (pyStrip raw) "DA:" = true →
      (splitComma (pyStrip raw)).length ≠ 2 → parseLine st raw = some st)
    ∧ (strStartsWith (pyStrip raw) "FNDA:" = true →
      (splitCommaOnce (pyStrip raw)).length ≠ 2 → parseLine st raw = some st)
    ∧ (∀ (cf : String) (r : CoverageRecord),
      strStartsWith (pyStrip raw) "BRDA:" = true →
      pyTruthy st.current_file = some cf →
      alGet st.coverage_data cf = some r →
      (splitComma (pyStrip raw)).length ≠ 4 →
      parseLine st raw = some { st with coverage_data := (alSet st.coverage_data cf
        { r with branch_data := r.branch_data ++ [pyStrip raw] }) })
    ∧ (strStartsWith (pyStrip raw) "BRDA:" = true →
      pyTruthy st.current_file = none → parseLine st raw = some st) :=
  ⟨parseLine_da_badfields st raw, parseLine_fnda_badfields st raw,
   fun cf r h1 h2 h3 h4 => parseLine_brda_badfields st raw cf r h1 h2 h3 h4,
   parseLine_brda_falsy st raw⟩

/-- Witness for the amended C4: a one-field DA: line is skipped, and a
two-field BRDA: line is appended to branch_data only. -/
theorem c4_amended_malformed_lines_witness :
    (parseLine ⟨[("x.c", emptyRecord)], some "x.c"⟩ "DA:5" =
      some ⟨[("x.c", emptyRecord)], some "x.c"⟩)
    ∧ (parseLine ⟨[("x.c", emptyRecord)], some "x.c"⟩ "BRDA:1,0" =
      some ⟨[("x.c",
        { emptyRecord with branch_data := ["BRDA:1,0"] })], some "x.c"⟩) := by
  constructor
  · exact (c4_amended_malformed_lines ⟨[("x.c", emptyRecord)], some "x.c"⟩ "DA:5").1
      (by decide) (by decide)
  · have h := (c4_amended_malformed_lines
      ⟨[("x.c", emptyRecord)], some "x.c"⟩ "BRDA:1,0").2.2.1 "x.c" emptyRecord
      (by decide) (by decide) (by decide) (by decide)
    rw [h]
    decide

/-- C5: a BRDA: entry whose count field is the placeholder '-' stores
count 0 (max of the previous count and 0) under its line:block:branch
key; in the serialized block BRF counts every branch key while BRH counts
only keys with positive count, so a key whose merged count is 0 is
included in the BRF total but excluded from the BRH covered count. -/
theorem c5_branch_placeholder_and_summaries :
    (∀ (st : ParseState) (raw cf p0 p1 p2 : String) (r : CoverageRecord),
      strStartsWith (pyStrip raw) "BRDA:" = true →
      pyTruthy st.current_file = some cf →
      splitComma (pyStrip raw) = [p0, p1, p2, "-"] →
      alGet st.coverage_data cf = some r →
      parseLine st raw = some { st with coverage_data := (alSet st.coverage_data cf
        { r with branch_data := r.branch_data ++ [pyStrip raw],
                 branches := (setMax r.branches
                   (strDrop p0 5 ++ ":" ++ p1 ++ ":" ++ p2) 0) }) })
    ∧ (∀ (b : List (String × Int)) (bk : String),
      getCount (setMax b bk 0) bk = max (getCount b bk) 0)
    ∧ (∀ (sf : String) (r : CoverageRecord),
      ("BRF:" ++ toString r.branches.length) ∈ write_merged_lcov [(sf, r)]
      ∧ ("BRH:" ++ toString (coveredCount r.branches)) ∈ write_merged_lcov [(sf, r)])
    ∧ (∀ (b : List (String × Int)) (bk : String),
      (bk, (0 : Int)) ∈ b → coveredCount b < b.length) := by
  refine ⟨?_, ?_, ?_, fun b bk h => coveredCount_lt_length b bk h⟩
  · intro st raw cf p0 p1 p2 r h1 h2 h3 h4
    exact parseLine_brda st raw cf p0 p1 p2 "-" r 0 h1 h2 h3 (by rw [if_pos rfl]) h4
  · intro b bk
    exact getCount_setMax_self _ _ _
  · intro sf r
    rw [write_singleton]
    unfold recordBlock
    constructor
    · simp [List.mem_append]
    · simp [List.mem_append]

/-- Witness for C5: parsing BRDA:3,0,1,- stores branch count 0, and a
record with one zero-count branch serializes with BRF:1 and BRH:0. -/
theorem c5_branch_placeholder_and_summaries_witness :
    (parseLine ⟨[("x.c", emptyRecord)], some "x.c"⟩ "BRDA:3,0,1,-" =
      some ⟨[("x.c", ⟨[], [], [("3:0:1", 0)], [], ["BRDA:3,0,1,-"]⟩)], some "x.c"⟩)
    ∧ coveredCount [(("3:0:1" : String), (0 : Int))] <
        [(("3:0:1" : String), (0 : Int))].length := by
  constructor
  · have h := (c5_branch_placeholder_and_summaries).1
      ⟨[("x.c", emptyRecord)], some "x.c"⟩ "BRDA:3,0,1,-" "x.c" "BRDA:3" "0" "1"
      emptyRecord (by decide) (by decide) (by decide) (by decide)
    rw [h]
    decide
  · exact (c5_branch_placeholder_and_summaries).2.2.2
      [(("3:0:1" : String), (0 : Int))] "3:0:1" (by decide)

/-- C6: serialization emits one block per source-file path in the
aggregate's insertion order (writing a concatenation of aggregates is the
concatenation of their outputs, and a singleton writes exactly its
block), each block containing in exactly this order: TN:, SF:,
function-definition lines (deduplicated), FNDA lines, FNF, FNH,
branch-definition lines (deduplicated), BRF, BRH, DA lines sorted
ascending by line number, LF, LH, end_of_record; the summaries FNF/FNH,
BRF/BRH, LF/LH are recomputed from the merged counters (total distinct
keys, and keys whose count is positive) and never copied from input
summary lines, which the parser leaves out of the parsed state. -/
theorem c6_serializer_structure :
    (∀ d1 d2 : CoverageData,
      write_merged_lcov (d1 ++ d2) = write_merged_lcov d1 ++ write_merged_lcov d2)
    ∧ (∀ (sf : String) (r : CoverageRecord), write_merged_lcov [(sf, r)] =
        ["TN:", "SF:" ++ sf]
        ++ dedupFirst r.function_data
        ++ r.functions.map (fun kv => "FNDA:" ++ toString kv.2 ++ "," ++ kv.1)
        ++ ["FNF:" ++ toString r.functions.length,
            "FNH:" ++ toString (coveredCount r.functions)]
        ++ dedupFirst r.branch_data
        ++ ["BRF:" ++ toString r.branches.length,
            "BRH:" ++ toString (coveredCount r.branches)]
        ++ (sortPairs r.lines).map
            (fun kv => "DA:" ++ toString kv.1 ++ "," ++ toString kv.2)
        ++ ["LF:" ++ toString r.lines.length,
            "LH:" ++ toString (coveredCount r.lines)]
        ++ ["end_of_record"])
    ∧ (∀ l : List (Int × Int),
        List.Pairwise (fun a b : Int => a ≤ b) ((sortPairs l).map Prod.fst))
    ∧ (∀ (st : ParseState) (raw : String),
        (strStartsWith (pyStrip raw) "FNF:" = true ∨
         strStartsWith (pyStrip raw) "FNH:" = true ∨
         strStartsWith (pyStrip raw) "BRF:" = true ∨
         strStartsWith (pyStrip raw) "BRH:" = true ∨
         strStartsWith (pyStrip raw) "LF:" = true ∨
         strStartsWith (pyStrip raw) "LH:" = true) →
        parseLine st raw = some st) := by
  refine ⟨write_append, ?_, sortPairs_keys_sorted, ?_⟩
  · intro sf r
    rw [write_singleton]
    rfl
  · intro st raw h
    rcases h with h | h | h | h | h | h
    · obtain ⟨t, ht⟩ := strStartsWith_shape h
      refine parseLine_ignored st raw ?_ ?_ ?_ ?_ ?_
      · show listLeads ("SF:").data (pyStrip raw).data = false
        rw [ht]
        rfl
      · show listLeads ("FN:").data (pyStrip raw).data = false
        rw [ht]
        rfl
      · show listLeads ("FNDA:").data (pyStrip raw).data = false
        rw [ht]
        rfl
      · show listLeads ("DA:").data (pyStrip raw).data = false
        rw [ht]
        rfl
      · show listLeads ("BRDA:").data (pyStrip raw).data = false
        rw [ht]
        rfl
    · obtain ⟨t, ht⟩ := strStartsWith_shape h
      refine parseLine_ignored st raw ?_ ?_ ?_ ?_ ?_
      · show listLeads ("SF:").data (pyStrip raw).data = false
        rw [ht]
        rfl
      · show listLeads ("FN:").data (pyStrip raw).data = false
        rw [ht]
        rfl
      · show listLeads ("FNDA:").data (pyStrip raw).data = false
        rw [ht]
        rfl
      · show listLeads ("DA:").data (pyStrip raw).data = false
        rw [ht]
        rfl
      · show listLeads ("BRDA:").data (pyStrip raw).data = false
        rw [ht]
        rfl
    · obtain ⟨t, ht⟩ := strStartsWith_shape h
      refine parseLine_ignored st raw ?_ ?_ ?_ ?_ ?_
      · show listLeads ("SF:").data (pyStrip raw).data = false
        rw [ht]
        rfl
      · show listLeads ("FN:").data (pyStrip raw).data = false
        rw [ht]
        rfl
      · show listLeads ("FNDA:").data (pyStrip raw).data = false
        rw [ht]
        rfl
      · show listLeads ("DA:").data (pyStrip raw).data = false
        rw [ht]
        rfl
      · show listLeads ("BRDA:").data (pyStrip raw).data = false
        rw [ht]
        rfl
    · obtain ⟨t, ht⟩ := strStartsWith_shape h
      refine parseLine_ignored st raw ?_ ?_ ?_ ?_ ?_
      · show listLeads ("SF:").data (pyStrip raw).data = false
        rw [ht]
        rfl
      · show listLeads ("FN:").data (pyStrip raw).data = false
        rw [ht]
        rfl
      · show listLeads ("FNDA:").data (pyStrip raw).data = false
        rw [ht]
        rfl
      · show listLeads ("DA:").data (pyStrip raw).data = false
        rw [ht]
        rfl
      · show listLeads ("BRDA:").data (pyStrip raw).data = false
        rw [ht]
        rfl
    · obtain ⟨t, ht⟩ := strStartsWith_shape h
      refine parseLine_ignored st raw ?_ ?_ ?_ ?_ ?_
      · show listLeads ("SF:").data (pyStrip raw).data = false
        rw [ht]
        rfl
      · show listLeads ("FN:").data (pyStrip raw).data = false
        rw [ht]
        rfl
      · show listLeads ("FNDA:").data (pyStrip raw).data = false
        rw [ht]
        rfl
      · show listLeads ("DA:").data (pyStrip raw).data = false
        rw [ht]
        rfl
      · show listLeads ("BRDA:").data (pyStrip raw).data = false
        rw [ht]
        rfl
    · obtain ⟨t, ht⟩ := strStartsWith_shape h
      refine parseLine_ignored st raw ?_ ?_ ?_ ?_ ?_
      · show listLeads ("SF:").data (pyStrip raw).data = false
        rw [ht]
        rfl
      · show listLeads ("FN:").data (pyStrip raw).data = false
        rw [ht]
        rfl
      · show listLeads ("FNDA:").data (pyStrip raw).data = false
        rw [ht]
        rfl
      · show listLeads ("DA:").data (pyStrip raw).data = false
        rw [ht]
        rfl
      · show listLeads ("BRDA:").data (pyStrip raw).data = false
        rw [ht]
        rfl

/-- Witness for C6: the parser discards a concrete LF: summary line. -/
theorem c6_serializer_structure_witness :
    parseLine ⟨[], none⟩ "LF:3" = some ⟨[], none⟩ :=
  (c6_serializer_structure).2.2.2 ⟨[], none⟩ "LF:3"
    (Or.inr (Or.inr (Or.inr (Or.inr (Or.inl (by decide))))))

/-- C7: a definition line appearing verbatim more than once — repeated in
one input or present identically in several — is written exactly once in
its source file's block: deduplication counts each distinct line once
(and lines never seen are not written), preserves first-seen order (the
deduplicated list is a sublist of the original), keys on exact string
identity, and the block embeds the deduplicated definition lists; in the
spec's concrete scenario the merged output holds FN:5,foo exactly once. -/
theorem c7_definition_line_dedup :
    (∀ (l : List String) (x : String), x ∈ l → (dedupFirst l).count x = 1)
    ∧ (∀ (l : List String) (x : String), x ∉ l → (dedupFirst l).count x = 0)
    ∧ (∀ l : List String, (dedupFirst l).Sublist l)
    ∧ (∀ (sf : String) (r : CoverageRecord), ∃ u v : List String,
        write_merged_lcov [(sf, r)] = u ++ dedupFirst r.function_data ++ v)
    ∧ (∀ (sf : String) (r : CoverageRecord), ∃ u v : List String,
        write_merged_lcov [(sf, r)] = u ++ dedupFirst r.branch_data ++ v)
    ∧ (write_merged_lcov (merge_coverage_files
        [some ["SF:x.c", "FN:5,foo", "FN:5,foo", "DA:1,1"],
         some ["SF:x.c", "FN:5,foo", "DA:1,2"]])).count "FN:5,foo" = 1 := by
  refine ⟨?_, ?_, dedupFirst_sublist, ?_, ?_, by decide⟩
  · intro l x h
    rw [dedupFirst_count, if_pos h]
  · intro l x h
    rw [dedupFirst_count, if_neg h]
  · intro sf r
    refine ⟨["TN:", "SF:" ++ sf], ?_, ?_⟩
    · exact r.functions.map (fun kv => "FNDA:" ++ toString kv.2 ++ "," ++ kv.1)
        ++ ["FNF:" ++ toString r.functions.length,
            "FNH:" ++ toString (coveredCount r.functions)]
        ++ dedupFirst r.branch_data
        ++ ["BRF:" ++ toString r.branches.length,
            "BRH:" ++ toString (coveredCount r.branches)]
        ++ (sortPairs r.lines).map
            (fun kv => "DA:" ++ toString kv.1 ++ "," ++ toString kv.2)
        ++ ["LF:" ++ toString r.lines.length,
            "LH:" ++ toString (coveredCount r.lines)]
        ++ ["end_of_record"]
    · rw [write_singleton]
      unfold recordBlock
      simp [List.append_assoc]
  · intro sf r
    refine ⟨["TN:", "SF:" ++ sf]
        ++ dedupFirst r.function_data
        ++ r.functions.map (fun kv => "FNDA:" ++ toString kv.2 ++ "," ++ kv.1)
        ++ ["FNF:" ++ toString r.functions.length,
            "FNH:" ++ toString (coveredCount r.functions)], ?_, ?_⟩
    · exact ["BRF:" ++ toString r.branches.length,
            "BRH:" ++ toString (coveredCount r.branches)]
        ++ (sortPairs r.lines).map
            (fun kv => "DA:" ++ toString kv.1 ++ "," ++ toString kv.2)
        ++ ["LF:" ++ toString r.lines.length,
            "LH:" ++ toString (coveredCount r.lines)]
        ++ ["end_of_record"]
    · rw [write_singleton]
      unfold recordBlock
      simp [List.append_assoc]

/-- Witness for C7: a line occurring twice is deduplicated to one
occurrence, one never occurring to zero. -/
theorem c7_definition_line_dedup_witness :
    (dedupFirst ["FN:5,foo", "FN:5,foo"]).count "FN:5,foo" = 1
    ∧ (dedupFirst ["FN:5,foo", "FN:5,foo"]).count "FN:9,bar" = 0 := by
  constructor
  · exact (c7_definition_line_dedup).1 ["FN:5,foo", "FN:5,foo"] "FN:5,foo" (by decide)
  · exact (c7_definition_line_dedup).2.1 ["FN:5,foo", "FN:5,foo"] "FN:9,bar" (by decide)

theorem format2_zero : format2 0 = "0.00" := by
  have h : ((0 : ℚ) * 100 + 1 / 2) = 1 / 2 := by norm_num
  have hf : Rat.floor ((1 : ℚ) / 2) = 0 := by
    rw [Rat.floor_def']
    norm_num
  unfold format2
  rw [h, hf]
  rfl

/-- C8: when a merged total (distinct lines, functions or branches) is 0,
the corresponding reported ratio is 0 — printed as 0.00 — and the
division is never performed (the guarded ratio returns 0 for any covered
count when the denominator is 0), so no division-by-zero error occurs. -/
theorem c8_zero_denominator_ratio (merged : CoverageData) :
    (totalLines merged = 0 →
      pctOf (coveredLines merged) (totalLines merged) = 0 ∧
      format2 (pctOf (coveredLines merged) (totalLines merged)) = "0.00")
    ∧ (totalFunctions merged = 0 →
      pctOf (coveredFunctions merged) (totalFunctions merged) = 0)
    ∧ (totalBranches merged = 0 →
      pctOf (coveredBranches merged) (totalBranches merged) = 0)
    ∧ (∀ covered : Nat, pctOf covered 0 = 0) := by
  refine ⟨?_, ?_, ?_, ?_⟩
  · intro h
    rw [h]
    constructor
    · simp [pctOf]
    · rw [show pctOf (coveredLines merged) 0 = 0 from by simp [pctOf]]
      exact format2_zero
  · intro h
    rw [h]
    simp [pctOf]
  · intro h
    rw [h]
    simp [pctOf]
  · intro covered
    simp [pctOf]

/-- Witness for C8: the empty aggregate has zero total lines and reports
a 0 ratio formatted as 0.00. -/
theorem c8_zero_denominator_ratio_witness :
    totalLines [] = 0
    ∧ pctOf (coveredLines []) (totalLines []) = 0
    ∧ format2 (pctOf (coveredLines []) (totalLines [])) = "0.00" :=
  ⟨rfl, ((c8_zero_denominator_ratio []).1 rfl).1, ((c8_zero_denominator_ratio []).1 rfl).2⟩

/-- C9: when no coverage data was extracted from any input (for example
every input path is nonexistent) the process exits with status 1 and
never writes the output file; when the aggregate is non-empty the merged
output is written and the process exits 0. -/
theorem c9_exit_status_and_output (inputs : List (Option (List String))) :
    (merge_coverage_files inputs = [] → runMain inputs = (none, 1))
    ∧ (merge_coverage_files inputs ≠ [] →
        runMain inputs = (some (write_merged_lcov (merge_coverage_files inputs)), 0))
    ∧ (∀ n : Nat, merge_coverage_files (List.replicate n none) = []) := by
  refine ⟨?_, ?_, ?_⟩
  · intro h
    simp [runMain, h]
  · intro h
    simp [runMain, h]
  · intro n
    induction n with
    | zero => rfl
    | succ m ih =>
        rw [List.replicate_succ]
        exact ih

/-- Witness for C9: only-missing inputs exit 1 with no output; one real
input writes its merge and exits 0. -/
theorem c9_exit_status_and_output_witness :
    (runMain [none] = (none, 1))
    ∧ (runMain [some ["SF:x.c", "DA:1,1"]] =
        (some (write_merged_lcov (merge_coverage_files [some ["SF:x.c", "DA:1,1"]])), 0)) :=
  ⟨(c9_exit_status_and_output [none]).1 (by decide),
   (c9_exit_status_and_output [some ["SF:x.c", "DA:1,1"]]).2.1 (by decide)⟩

/-- C10: a line with the right field count for its tag but an invalid
numeric field makes the int conversion raise inside the loop (`none`),
the exception is caught at file level and parse_lcov_file returns the
empty mapping — every record already parsed from that file is discarded,
not just the offending line — while the merge still continues with the
remaining input files (the failed file contributes nothing). -/
theorem c10_invalid_number_discards_file :
    (∀ (st : ParseState) (raw cf p0 p1 : String),
      strStartsWith (pyStrip raw) "DA:" = true →
      pyTruthy st.current_file = some cf →
      splitComma (pyStrip raw) = [p0, p1] →
      pyInt (strDrop p0 3) = none →
      parseLine st raw = none)
    ∧ (∀ (st : ParseState) (raw cf p0 p1 : String) (k : Int),
      strStartsWith (pyStrip raw) "DA:" = true →
      pyTruthy st.current_file = some cf →
      splitComma (pyStrip raw) = [p0, p1] →
      pyInt (strDrop p0 3) = some k →
      pyInt p1 = none →
      parseLine st raw = none)
    ∧ (∀ (st : ParseState) (raw cf p0 p1 : String),
      strStartsWith (pyStrip raw) "FNDA:" = true →
      pyTruthy st.current_file = some cf →
      splitCommaOnce (pyStrip raw) = [p0, p1] →
      pyInt (strDrop p0 5) = none →
      parseLine st raw = none)
    ∧ (∀ (pre post : List String) (x : String) (st : ParseState),
      runLines initState pre = some st → parseLine st x = none →
      parse_lcov_file (pre ++ x :: post) = [])
    ∧ (∀ content : List String,
      runLines initState content = none → parse_lcov_file content = [])
    ∧ (∀ (agg : CoverageData) (content : List String),
      runLines initState content = none →
      mergeOneFile agg (parse_lcov_file content) = agg)
    ∧ (∀ (content : List String) (rest : List (Option (List String))),
      runLines initState content = none →
      merge_coverage_files (some content :: rest) = merge_coverage_files rest) := by
  have hparse : ∀ content : List String,
      runLines initState content = none → parse_lcov_file content = [] := by
    intro content h
    unfold parse_lcov_file
    rw [h]
  refine ⟨parseLine_da_badnum1, parseLine_da_badnum2, parseLine_fnda_badnum,
    ?_, hparse, ?_, ?_⟩
  · intro pre post x st hpre hx
    have h : runLines initState (pre ++ x :: post) = none := by
      rw [runLines_append pre (x :: post) initState, hpre]
      show runLines st (x :: post) = none
      rw [runLines, hx]
    unfold parse_lcov_file
    rw [h]
  · intro agg content h
    rw [hparse content h]
    rfl
  · intro content rest h
    have h1 : merge_coverage_files (some content :: rest) =
        (rest.foldl mergeStep (mergeStep [] (some content))) := rfl
    rw [h1]
    have h2 : mergeStep [] (some content) = mergeOneFile [] (parse_lcov_file content) := rfl
    rw [h2, hparse content h]
    rfl

/-- Witness for C10: DA:2,abc aborts the file, records parsed before it
are discarded, and the merge of the remaining input is unaffected. -/
theorem c10_invalid_number_discards_file_witness :
    (parseLine ⟨[("x.c", ⟨[], [(1, 5)], [], [], []⟩)], some "x.c"⟩ "DA:2,abc" = none)
    ∧ (parse_lcov_file ["SF:x.c", "DA:1,5", "DA:2,abc", "DA:3,4"] = [])
    ∧ (merge_coverage_files
        [some ["SF:x.c", "DA:1,5", "DA:2,abc", "DA:3,4"], some ["SF:y.c", "DA:7,1"]] =
       merge_coverage_files [some ["SF:y.c", "DA:7,1"]]) := by
  refine ⟨?_, ?_, ?_⟩
  · exact (c10_invalid_number_discards_file).2.1
      ⟨[("x.c", ⟨[], [(1, 5)], [], [], []⟩)], some "x.c"⟩ "DA:2,abc" "x.c" "DA:2" "abc" 2
      (by decide) (by decide) (by decide) (by decide) (by decide)
  · exact (c10_invalid_number_discards_file).2.2.2.1
      ["SF:x.c", "DA:1,5"] ["DA:3,4"] "DA:2,abc"
      ⟨[("x.c", ⟨[], [(1, 5)], [], [], []⟩)], some "x.c"⟩ (by decide) (by decide)
  · exact (c10_invalid_number_discards_file).2.2.2.2.2.2
      ["SF:x.c", "DA:1,5", "DA:2,abc", "DA:3,4"] [some ["SF:y.c", "DA:7,1"]] (by decide)
